import Mathlib

/-!
Shallow embedding of the elevator-pitch marketplace backend
(order lifecycle engine, conversation engine) and proofs about it.

Conventions of the embedding:
* Mongo ObjectIds are `Nat`; timestamps are `Nat` clocks passed in explicitly.
* Collections are association lists `List (Nat × α)` keyed by id; `findById`
  models `Model.findById` (first match) and `setById` models saving a fetched
  document back (replace in place).  Creating a document conses a fresh id.
* JS floating-point averages are modelled with `ℚ` (exact arithmetic on the
  small integer scores involved).
* A controller returning `next(new AppError ...)` before any mutation is
  modelled by `Except Err St`: the error constructor carries the message and
  the state is simply not changed (`St.after` makes this explicit).
* Socket emissions (`io.to(...).emit ...`) are fire-and-forget and carry no
  state, so they are not modelled.
-/

/-- Association-list lookup by id: first entry with the given key
(models `Model.findById` / `DocumentArray.id`). -/
def findById {α : Type} : List (Nat × α) → Nat → Option α
  | [], _ => none
  | (i, a) :: rest, j => if j = i then some a else findById rest j

/-- Replace (in place) the first entry with the given key
(models saving a fetched mongoose document). -/
def setById {α : Type} : List (Nat × α) → Nat → α → List (Nat × α)
  | [], _, _ => []
  | (i, a) :: rest, j, b =>
    if i = j then (i, b) :: rest else (i, a) :: setById rest j b

/-! ## Order data model (src/unnamed/part_003, `orderSchema`) -/

/-- `orderSchema.status` enum. -/
inductive OrderStatus
  | pending | confirmed | meetupScheduled | inProgress | completed | cancelled | disputed
  deriving DecidableEq, Repr

/-- `listingSchema.status` enum. -/
inductive ListingStatus
  | active | sold | reserved | inactive
  deriving DecidableEq, Repr

/-- One element of `orderSchema.timeline`. -/
structure TimelineEntry where
  status : OrderStatus
  timestamp : Nat
  note : String
  deriving DecidableEq, Repr

/-- One slot of `orderSchema.rating` (`buyerRating` / `sellerRating`). -/
structure RatingSlot where
  score : Nat
  review : String
  createdAt : Nat
  deriving DecidableEq, Repr

structure OrderRating where
  buyerRating : Option RatingSlot
  sellerRating : Option RatingSlot
  deriving DecidableEq, Repr

structure Cancellation where
  cancelledBy : Nat
  reason : String
  timestamp : Nat
  deriving DecidableEq, Repr

inductive DisputeStatus
  | open | inReview | resolved
  deriving DecidableEq, Repr

structure Dispute where
  initiatedBy : Nat
  reason : String
  status : DisputeStatus
  timestamp : Nat
  deriving DecidableEq, Repr

structure ListingSnapshot where
  title : String
  description : String
  images : List String
  category : String
  deriving DecidableEq, Repr

structure MeetupDetails where
  location : String
  date : Nat
  time : String
  additionalInfo : String
  deriving DecidableEq, Repr

structure OrderNotes where
  buyer : Option String
  seller : Option String
  deriving DecidableEq, Repr

/-- An order document.  `orderNumber` (generated in the pre-save hook from the
wall clock and `Math.random`) carries no logic used by any claim and is
omitted; the document id plays the identity role. -/
structure Order where
  buyer : Nat
  seller : Nat
  listing : Nat
  listingSnapshot : ListingSnapshot
  price : Int
  negotiatedPrice : Option Int
  finalPrice : Int
  status : OrderStatus
  meetupDetails : Option MeetupDetails
  timeline : List TimelineEntry
  rating : OrderRating
  cancellation : Option Cancellation
  dispute : Option Dispute
  notes : OrderNotes
  deriving DecidableEq, Repr

/-- `orderSchema.methods.updateStatus`: set the status and push a timeline
entry. -/
def Order.updateStatus (o : Order) (newStatus : OrderStatus) (now : Nat)
    (note : String) : Order :=
  { o with
    status := newStatus
    timeline := o.timeline ++ [⟨newStatus, now, note⟩] }

/-- `orderSchema.methods.cancel`. -/
def Order.cancel (o : Order) (userId : Nat) (reason : String) (now : Nat) : Order :=
  { o with
    status := .cancelled
    cancellation := some ⟨userId, reason, now⟩
    timeline := o.timeline ++
      [⟨.cancelled, now, "Cancelled by user. Reason: " ++ reason⟩] }

/-- `orderSchema.methods.initiateDispute`. -/
def Order.initiateDispute (o : Order) (userId : Nat) (reason : String) (now : Nat) :
    Order :=
  { o with
    status := .disputed
    dispute := some ⟨userId, reason, .open, now⟩
    timeline := o.timeline ++ [⟨.disputed, now, "Dispute initiated: " ++ reason⟩] }

/-- `orderSchema.methods.canBeRated`. -/
def Order.canBeRated (o : Order) : Bool :=
  o.status = .completed

/-- `orderSchema.methods.canBeCancelled`. -/
def Order.canBeCancelled (o : Order) : Bool :=
  o.status = .pending ∨ o.status = .confirmed ∨ o.status = .meetupScheduled

/-- A listing document (the fields the order/chat controllers read). -/
structure Listing where
  seller : Nat
  title : String
  description : String
  images : List String
  category : String
  price : Int
  status : ListingStatus
  deriving DecidableEq, Repr

/-- A user profile document (the fields the order controllers write).
`ratingAverage`/`ratingCount` model `user.rating.{average,count}`. -/
structure UserProfile where
  ratingAverage : ℚ
  ratingCount : Nat
  orders : List Nat
  deriving DecidableEq, Repr

inductive Role
  | student | admin
  deriving DecidableEq, Repr

/-! ## Chat data model (src/unnamed/part_003, `messageSchema` / `chatSchema`) -/

/-- `messageSchema.type` enum. -/
inductive MsgType
  | text | image | offer
  deriving DecidableEq, Repr

/-- `messageSchema.offer.status` enum. -/
inductive OfferStatus
  | pending | accepted | rejected | withdrawn
  deriving DecidableEq, Repr

/-- `messageSchema.offer`.  Mongoose materialises the nested default
`status: 'pending'` on every message document, so the field is always
present; `amount` is optional. -/
structure Offer where
  amount : Option Nat
  status : OfferStatus
  deriving DecidableEq, Repr

/-- One element of `chatSchema.messages`.  `id` models the auto-generated
subdocument `_id`; `createdAt` is the `timestamps: true` field, which is
`none` until the document is saved. -/
structure Message where
  id : Nat
  sender : Nat
  content : String
  type : MsgType
  image : Option String
  offer : Offer
  isRead : Bool
  readAt : Option Nat
  createdAt : Option Nat
  deriving DecidableEq, Repr

/-- `chatSchema.lastMessage` denormalized cache. -/
structure LastMessage where
  content : String
  sender : Nat
  createdAt : Option Nat
  deriving DecidableEq, Repr

/-- A chat document.  `unreadCount` is the `Map` field, as an association
list with default-zero reads. -/
structure Chat where
  participants : List Nat
  listing : Nat
  messages : List Message
  lastMessage : Option LastMessage
  unreadCount : List (Nat × Nat)
  isActive : Bool
  blockedBy : List Nat
  deriving DecidableEq, Repr

/-- `this.unreadCount.get(u) || 0`. -/
def Chat.unread (c : Chat) (u : Nat) : Nat :=
  (findById c.unreadCount u).getD 0

/-- `this.unreadCount.set(u, n)`. -/
def Chat.setUnread (c : Chat) (u : Nat) (n : Nat) : Chat :=
  { c with
    unreadCount :=
      if (findById c.unreadCount u).isSome then setById c.unreadCount u n
      else (u, n) :: c.unreadCount }

/-- `chatSchema.methods.updateLastMessage`: cache the truncated content,
sender and `createdAt` of the message object it is handed. -/
def Chat.updateLastMessage (c : Chat) (m : Message) : Chat :=
  { c with lastMessage := some ⟨m.content.take 100, m.sender, m.createdAt⟩ }

/-- `chatSchema.methods.incrementUnread`. -/
def Chat.incrementUnread (c : Chat) (recipientId : Nat) : Chat :=
  c.setUnread recipientId (c.unread recipientId + 1)

/-- The per-message body of `chatSchema.methods.markAsRead`. -/
def markMsg (u : Nat) (now : Nat) (m : Message) : Message :=
  if m.isRead = false ∧ m.sender ≠ u then
    { m with isRead := true, readAt := some now }
  else m

/-- `chatSchema.methods.markAsRead`: mark every unread message from the other
party, and zero the caller's counter only when at least one message was
marked (`hasUnread`). -/
def Chat.markAsRead (c : Chat) (u : Nat) (now : Nat) : Chat :=
  let hasUnread := c.messages.any fun m => m.isRead = false ∧ m.sender ≠ u
  let c' := { c with messages := c.messages.map (markMsg u now) }
  if hasUnread then c'.setUnread u 0 else c'

/-- `chatSchema.methods.isParticipant`. -/
def Chat.isParticipant (c : Chat) (u : Nat) : Bool :=
  c.participants.any fun p => p = u

/-- `chatSchema.methods.isBlockedBy`. -/
def Chat.isBlockedBy (c : Chat) (u : Nat) : Bool :=
  c.blockedBy.any fun b => b = u

/-! ## Errors and server state -/

/-- The error kinds surfaced by the controllers (§7 of the spec); each
`AppError(message, status)` in the source is mapped to the kind the spec
assigns it, carrying the source's message text. -/
inductive Err
  | notFound : String → Err
  | forbidden : String → Err
  | invalidTransition : OrderStatus → OrderStatus → Err
  | alreadyResolved : String → Err
  | validationFailed : String → Err
  | badRequest : String → Err
  deriving DecidableEq, Repr

/-- The persistent state the controllers read and write: the four
collections, plus the fresh-id counter for order creation. -/
structure St where
  orders : List (Nat × Order)
  nextOrder : Nat
  listings : List (Nat × Listing)
  users : List (Nat × UserProfile)
  chats : List (Nat × Chat)
  deriving DecidableEq, Repr

/-- The state after a controller call: an error response leaves the store
untouched (every controller returns `next(err)` before saving anything). -/
def St.after (st : St) : Except Err St → St
  | .ok st' => st'
  | .error _ => st

/-- `$push: { orders: orderId }` via `findByIdAndUpdate` (a silent no-op when
the user document is absent). -/
def pushUserOrder (users : List (Nat × UserProfile)) (u oid : Nat) :
    List (Nat × UserProfile) :=
  match findById users u with
  | none => users
  | some prof => setById users u { prof with orders := prof.orders ++ [oid] }

/-- `findByIdAndUpdate(targetUser, {'rating.average': a, 'rating.count': n})`
(silent no-op when absent). -/
def setUserRating (users : List (Nat × UserProfile)) (u : Nat) (avg : ℚ)
    (count : Nat) : List (Nat × UserProfile) :=
  match findById users u with
  | none => users
  | some prof => setById users u { prof with ratingAverage := avg, ratingCount := count }

/-- `Listing.findByIdAndUpdate(id, { status })` (silent no-op when absent). -/
def setListingStatus (listings : List (Nat × Listing)) (id : Nat)
    (s : ListingStatus) : List (Nat × Listing) :=
  match findById listings id with
  | none => listings
  | some l => setById listings id { l with status := s }

/-! ## Order controllers (src/controllers/order.controller.js) -/

/-- The document `Order.create` builds in `createOrder`: snapshot of the
listing, schema-default `pending` status, a single timeline entry. -/
def newOrder (userId listingId : Nat) (l : Listing) (finalPrice : Int)
    (negotiatedPrice : Option Int) (meetup : Option MeetupDetails)
    (notes : Option String) (now : Nat) : Order :=
  { buyer := userId
    seller := l.seller
    listing := listingId
    listingSnapshot := ⟨l.title, l.description, l.images, l.category⟩
    price := l.price
    negotiatedPrice := negotiatedPrice
    finalPrice := finalPrice
    status := .pending            -- schema default
    meetupDetails := meetup
    timeline := [⟨.pending, now, "Order created"⟩]
    rating := ⟨none, none⟩
    cancellation := none
    dispute := none
    notes := ⟨notes, none⟩ }

/-- `createOrder`: precondition chain and effects in source order.  The
populated `listing.seller._id` is the stored `listing.seller` id. -/
def createOrder (st : St) (userId : Nat) (listingId : Nat) (finalPrice : Int)
    (negotiatedPrice : Option Int) (meetup : Option MeetupDetails)
    (notes : Option String) (now : Nat) : Except Err St :=
  match findById st.listings listingId with
  | none => .error (.notFound "Listing not found")
  | some l =>
    if l.status ≠ .active then .error (.badRequest "This listing is not available")
    else if l.seller = userId then
      .error (.badRequest "You cannot buy your own listing")
    else if finalPrice < 0 then .error (.badRequest "Invalid price")
    else
      .ok
        { st with
          orders := (st.nextOrder,
            newOrder userId listingId l finalPrice negotiatedPrice meetup notes now) :: st.orders
          nextOrder := st.nextOrder + 1
          listings := setById st.listings listingId { l with status := .reserved }
          users := pushUserOrder (pushUserOrder st.users userId st.nextOrder)
            l.seller st.nextOrder }

/-- The two conditional listing writes after a successful status update:
`completed` flips the listing to `sold`, `cancelled` back to `active`. -/
def listingFlip (listings : List (Nat × Listing)) (lid : Nat)
    (status : OrderStatus) : List (Nat × Listing) :=
  let l1 := if status = .completed then setListingStatus listings lid .sold else listings
  if status = .cancelled then setListingStatus l1 lid .active else l1

/-- The §4.1 transition table literal from `updateOrderStatus`. -/
def validTransitions : OrderStatus → List OrderStatus
  | .pending => [.confirmed, .cancelled]
  | .confirmed => [.meetupScheduled, .cancelled]
  | .meetupScheduled => [.inProgress, .cancelled]
  | .inProgress => [.completed, .disputed]
  | .completed => []
  | .cancelled => []
  | .disputed => [.completed, .cancelled]

/-- `updateOrderStatus`: authorization, transition-table check, status update,
then the listing flips for the two terminal targets. -/
def updateOrderStatus (st : St) (userId : Nat) (role : Role) (orderId : Nat)
    (status : OrderStatus) (note : String) (now : Nat) : Except Err St :=
  match findById st.orders orderId with
  | none => .error (.notFound "Order not found")
  | some o =>
    let isBuyer := userId = o.buyer
    let isSeller := userId = o.seller
    if ¬isBuyer ∧ ¬isSeller ∧ role ≠ .admin then
      .error (.forbidden "Not authorized to update this order")
    else if status ∉ validTransitions o.status then
      .error (.invalidTransition o.status status)
    else
      .ok
        { st with
          orders := setById st.orders orderId (o.updateStatus status now note)
          listings := listingFlip st.listings o.listing status }

/-- `updateMeetupDetails` (no admin bypass here). -/
def updateMeetupDetails (st : St) (userId : Nat) (orderId : Nat)
    (details : MeetupDetails) (now : Nat) : Except Err St :=
  match findById st.orders orderId with
  | none => .error (.notFound "Order not found")
  | some o =>
    if o.buyer ≠ userId ∧ o.seller ≠ userId then
      .error (.forbidden "Not authorized to update this order")
    else
      let o1 := { o with meetupDetails := some details }
      let o2 :=
        if o1.status = .confirmed then o1.updateStatus .meetupScheduled now "Meetup details added"
        else o1
      .ok { st with orders := setById st.orders orderId o2 }

/-- Scores received by `u` in the seller role: `buyerRating.score` over that
user's completed orders as seller (the query `orderSchema.methods.addRating`
issues when the rater is the buyer). -/
def scoresReceivedAsSeller (orders : List (Nat × Order)) (u : Nat) : List Nat :=
  orders.filterMap fun p =>
    if p.2.seller = u ∧ p.2.status = .completed then
      p.2.rating.buyerRating.map RatingSlot.score
    else none

/-- Scores received by `u` in the buyer role: `sellerRating.score` over that
user's completed orders as buyer. -/
def scoresReceivedAsBuyer (orders : List (Nat × Order)) (u : Nat) : List Nat :=
  orders.filterMap fun p =>
    if p.2.buyer = u ∧ p.2.status = .completed then
      p.2.rating.sellerRating.map RatingSlot.score
    else none

/-- Arithmetic mean of a list of scores, 0 when empty (matches
`totalRatings > 0 ? sum / total : 0`). -/
def meanScore (scores : List Nat) : ℚ :=
  if scores.length > 0 then ((scores.sum : ℚ) / scores.length) else 0

/-- The rating slot the acting party would fill, read through the JS
truthiness check `existingRating?.score` (`0`/absent are both falsy). -/
def existingScore (o : Order) (isBuyer : Bool) : Nat :=
  ((if isBuyer then o.rating.buyerRating else o.rating.sellerRating).map
    RatingSlot.score).getD 0

/-- `this.rating[ratingField] = { score, review, createdAt }`. -/
def withSlot (o : Order) (isBuyer : Bool) (slot : RatingSlot) : Order :=
  if isBuyer then { o with rating := { o.rating with buyerRating := some slot } }
  else { o with rating := { o.rating with sellerRating := some slot } }

/-- The recompute scan of `orderSchema.methods.addRating`:
`this.constructor.find({[role]: targetUser, status: 'completed',
['rating.' + slot + '.score']: {$exists: true}})`, then
`totalRatings`, `sumRatings` (with `(rating || 0)`) and
`totalRatings > 0 ? sumRatings / totalRatings : 0`.  Returns
(averageRating, totalRatings). -/
def recomputeRating (orders : List (Nat × Order)) (target : Nat)
    (isBuyer : Bool) : ℚ × Nat :=
  let found := orders.filter fun p =>
    (if isBuyer then p.2.seller else p.2.buyer) = target ∧
      p.2.status = .completed ∧
      (if isBuyer then p.2.rating.buyerRating else p.2.rating.sellerRating).isSome
  let totalRatings : Nat := found.length
  let sumRatings : Nat := found.foldl
    (fun s p =>
      s + ((if isBuyer then p.2.rating.buyerRating else p.2.rating.sellerRating).map
        RatingSlot.score).getD 0)
    0
  (if totalRatings > 0 then (sumRatings : ℚ) / totalRatings else 0, totalRatings)

/-- `addRating` controller plus `orderSchema.methods.addRating`: set the
acting party's slot, then rescan the counterparty's completed orders *in the
counterparty's one role* and persist the average/count on their profile. -/
def addRating (st : St) (userId : Nat) (orderId : Nat) (score : Nat)
    (review : String) (now : Nat) : Except Err St :=
  match findById st.orders orderId with
  | none => .error (.notFound "Order not found")
  | some o =>
    if ¬o.canBeRated then .error (.badRequest "Only completed orders can be rated")
    else
      let isBuyer : Bool := userId = o.buyer
      let isSeller : Bool := userId = o.seller
      if !isBuyer && !isSeller then
        .error (.forbidden "Not authorized to rate this order")
      else if existingScore o isBuyer ≠ 0 then
        .error (.alreadyResolved "You have already rated this order")
      else
        let st1 :=
          { st with orders := setById st.orders orderId (withSlot o isBuyer ⟨score, review, now⟩) }
        let targetUser := if isBuyer then o.seller else o.buyer
        let r := recomputeRating st1.orders targetUser isBuyer
        .ok { st1 with users := setUserRating st1.users targetUser r.1 r.2 }

/-- `addRatingValidation` (score an integer in 1..5) composed with the
controller, as mounted on `POST /api/orders/:id/rating`. -/
def addRatingEndpoint (st : St) (userId : Nat) (orderId : Nat) (score : Nat)
    (review : String) (now : Nat) : Except Err St :=
  if score < 1 ∨ 5 < score then .error (.validationFailed "Rating must be between 1 and 5")
  else addRating st userId orderId score review now

/-- `cancelOrder`: reason mandatory, buyer/seller only, `canBeCancelled`
guard, then `order.cancel` plus the listing reactivation. -/
def cancelOrder (st : St) (userId : Nat) (orderId : Nat) (reason : String)
    (now : Nat) : Except Err St :=
  if reason = "" then .error (.badRequest "Cancellation reason is required")
  else
    match findById st.orders orderId with
    | none => .error (.notFound "Order not found")
    | some o =>
      if o.buyer ≠ userId ∧ o.seller ≠ userId then
        .error (.forbidden "Not authorized to cancel this order")
      else if ¬o.canBeCancelled then
        .error (.badRequest "This order cannot be cancelled at this stage")
      else
        .ok
          { st with
            orders := setById st.orders orderId (o.cancel userId reason now)
            listings := setListingStatus st.listings o.listing .active }

/-- `initiateDispute`: reason mandatory, buyer/seller only, and the *only*
state guard is `status !== 'disputed'`. -/
def initiateDispute (st : St) (userId : Nat) (orderId : Nat) (reason : String)
    (now : Nat) : Except Err St :=
  if reason = "" then .error (.badRequest "Dispute reason is required")
  else
    match findById st.orders orderId with
    | none => .error (.notFound "Order not found")
    | some o =>
      if o.buyer ≠ userId ∧ o.seller ≠ userId then
        .error (.forbidden "Not authorized to dispute this order")
      else if o.status = .disputed then
        .error (.badRequest "This order is already in dispute")
      else
        .ok { st with orders := setById st.orders orderId (o.initiateDispute userId reason now) }

/-- `addNotes`: notes mandatory, buyer/seller only, writes the caller's slot. -/
def addNotes (st : St) (userId : Nat) (orderId : Nat) (notes : String) :
    Except Err St :=
  if notes = "" then .error (.badRequest "Notes are required")
  else
    match findById st.orders orderId with
    | none => .error (.notFound "Order not found")
    | some o =>
      let isBuyer := userId = o.buyer
      let isSeller := userId = o.seller
      if ¬isBuyer ∧ ¬isSeller then
        .error (.forbidden "Not authorized to update this order")
      else
        let o' :=
          if isBuyer then { o with notes := { o.notes with buyer := some notes } }
          else { o with notes := { o.notes with seller := some notes } }
        .ok { st with orders := setById st.orders orderId o' }

/-! ## Chat controllers (src/controllers/chat.controller.js) -/

/-- The in-memory message object `sendMessage` builds: no timestamps yet
(`createdAt := none`), image attached only for `image` type with a payload,
offer payload attached only for `offer` type (the offer sub-state defaults
to `pending` either way). -/
def builtMsg (c : Chat) (userId : Nat) (content : String) (type : MsgType)
    (image : Option String) (offer : Option (Option Nat)) : Message :=
  { id := c.messages.length
    sender := userId
    content := content
    type := type
    image := if type = .image then image else none
    offer :=
      match type, offer with
      | .offer, some amount => ⟨amount, .pending⟩
      | _, _ => ⟨none, .pending⟩
    isRead := false
    readAt := none
    createdAt := none }

/-- The chat state `sendMessage` saves: the message appended (the stored
copy acquires its `createdAt` timestamp at save), the `lastMessage` cache
updated from the in-memory object, and the recipient's unread counter
incremented. -/
def sentChat (c : Chat) (userId : Nat) (content : String) (type : MsgType)
    (image : Option String) (offer : Option (Option Nat)) (recipient now : Nat) : Chat :=
  let msg := builtMsg c userId content type image offer
  -- `chat.messages.push(message)`
  let stored := { msg with createdAt := some now }
  let c1 := { c with messages := c.messages ++ [stored] }
  -- `chat.updateLastMessage(message)` is handed the plain object
  let c2 := c1.updateLastMessage msg
  c2.incrementUnread recipient

/-- `sendMessage` controller body.  The request's `offer` field is an optional
object whose `amount` is itself optional (`Option (Option Nat)`).  A missing
recipient (only possible when both participants equal the caller, which the
two-distinct-participants invariant rules out) would crash the handler at
`recipient.toString()`; that runtime failure is modelled as an error. -/
def sendMessage (st : St) (userId : Nat) (chatId : Nat) (content : String)
    (type : MsgType) (image : Option String) (offer : Option (Option Nat))
    (now : Nat) : Except Err St :=
  match findById st.chats chatId with
  | none => .error (.notFound "Chat not found")
  | some c =>
    if ¬c.isParticipant userId then
      .error (.forbidden "Not authorized to send messages in this chat")
    else if c.isBlockedBy userId then
      .error (.forbidden "You have blocked this chat")
    else
      match c.participants.find? fun p => p ≠ userId with
      | none => .error (.badRequest "recipient is undefined")
      | some recipient =>
        if c.isBlockedBy recipient then
          .error (.forbidden "You cannot send messages to this user")
        else
          let c3 := sentChat c userId content type image offer recipient now
          .ok { st with chats := setById st.chats chatId c3 }

/-- The `.trim()` sanitizer: strip leading and trailing whitespace
(structurally, over the character list). -/
def jsTrim (s : String) : String :=
  ⟨((s.data.dropWhile Char.isWhitespace).reverse.dropWhile Char.isWhitespace).reverse⟩

/-- `sendMessageValidation` (trim; non-empty; ≤ 2000 chars) composed with the
controller, as mounted on `POST /api/chat/:id/messages`. -/
def sendMessageEndpoint (st : St) (userId : Nat) (chatId : Nat) (content : String)
    (type : MsgType) (image : Option String) (offer : Option (Option Nat))
    (now : Nat) : Except Err St :=
  let t := jsTrim content
  if t = "" then .error (.validationFailed "Message content is required")
  else if 2000 < t.length then
    .error (.validationFailed "Message cannot exceed 2000 characters")
  else sendMessage st userId chatId t type image offer now

/-- `markChatAsRead` controller (`PUT /api/chat/:id/read`). -/
def markChatAsRead (st : St) (userId : Nat) (chatId : Nat) (now : Nat) :
    Except Err St :=
  match findById st.chats chatId with
  | none => .error (.notFound "Chat not found")
  | some c =>
    if ¬c.isParticipant userId then
      .error (.forbidden "Not authorized to access this chat")
    else .ok { st with chats := setById st.chats chatId (c.markAsRead userId now) }

/-- `getChatById` controller (`GET /api/chat/:id`): the fetch also runs
`chat.markAsRead(req.user._id)` before responding. -/
def getChatById (st : St) (userId : Nat) (chatId : Nat) (now : Nat) :
    Except Err St :=
  match findById st.chats chatId with
  | none => .error (.notFound "Chat not found")
  | some c =>
    if ¬c.isParticipant userId then
      .error (.forbidden "Not authorized to access this chat")
    else .ok { st with chats := setById st.chats chatId (c.markAsRead userId now) }

/-- `toggleBlockChat` controller. -/
def toggleBlockChat (st : St) (userId : Nat) (chatId : Nat) : Except Err St :=
  match findById st.chats chatId with
  | none => .error (.notFound "Chat not found")
  | some c =>
    if ¬c.isParticipant userId then
      .error (.forbidden "Not authorized to modify this chat")
    else
      let c' :=
        if c.isBlockedBy userId then
          { c with blockedBy := c.blockedBy.filter fun b => b ≠ userId }
        else { c with blockedBy := c.blockedBy ++ [userId] }
      .ok { st with chats := setById st.chats chatId c' }

/-- Replace the first message with the given subdocument id (the in-place
mutation of the document `chat.messages.id(messageId)` returns). -/
def setMsg : List Message → Nat → Message → List Message
  | [], _, _ => []
  | m :: ms, i, m' => if m.id = i then m' :: ms else m :: setMsg ms i m'

/-- `message.offer.status = status` for a response string. -/
def respondedMsg (m : Message) (resp : String) : Message :=
  { m with offer := { m.offer with
      status := if resp = "accepted" then .accepted else .rejected } }

/-- The chat after `respondToOffer` mutates the found offer message. -/
def respondedChat (c : Chat) (messageId : Nat) (m : Message) (resp : String) : Chat :=
  { c with messages := setMsg c.messages messageId (respondedMsg m resp) }

/-- `respondToOffer` controller: response-string check, seller-of-the-listing
check, then the message must exist, be an offer and still be pending. -/
def respondToOffer (st : St) (userId : Nat) (chatId : Nat) (messageId : Nat)
    (status : String) : Except Err St :=
  if status ≠ "accepted" ∧ status ≠ "rejected" then
    .error (.badRequest "Invalid status. Use accepted or rejected")
  else
    match findById st.chats chatId with
    | none => .error (.notFound "Chat not found")
    | some c =>
      match findById st.listings c.listing with
      | none => .error (.notFound "Listing not found")
      | some l =>
        if l.seller ≠ userId then
          .error (.forbidden "Only the seller can respond to offers")
        else
          match c.messages.find? fun m => m.id = messageId with
          | none => .error (.notFound "Message not found")
          | some m =>
            if m.type ≠ .offer then
              .error (.badRequest "This message is not an offer")
            else if m.offer.status ≠ .pending then
              .error (.alreadyResolved "This offer has already been responded to")
            else
              let c' := respondedChat c messageId m status
              .ok { st with chats := setById st.chats chatId c' }

deriving instance DecidableEq for Except

/-! ## Spec-side predicates and the operation step relation -/

/-- §3 invariant: `status` equals the status of the last timeline entry. -/
def OrderInv (o : Order) : Prop :=
  o.timeline.getLast?.map TimelineEntry.status = some o.status

instance (o : Order) : Decidable (OrderInv o) := by
  unfold OrderInv; infer_instance

/-- Well-formedness of the order store: every order satisfies the timeline
invariant and carries an id below the fresh-id counter. -/
def OrdersOK (st : St) : Prop :=
  ∀ p ∈ st.orders, OrderInv p.2 ∧ p.1 < st.nextOrder

instance (st : St) : Decidable (OrdersOK st) := by
  unfold OrdersOK; infer_instance

/-- The timeline of every pre-existing order only grows: no prior entry is
mutated or removed by a step. -/
def TimelineExt (st st' : St) : Prop :=
  ∀ i o, findById st.orders i = some o →
    ∃ o', findById st'.orders i = some o' ∧ ∃ tail, o'.timeline = o.timeline ++ tail

/-- One successful call to any order-mutating entry point
(`createOrder`, `updateOrderStatus`, `cancelOrder`, `initiateDispute`,
`addRating`, `updateMeetupDetails`, `addNotes`). -/
inductive OStep : St → St → Prop
  | create (st st' : St) (u lid : Nat) (fp : Int) (np : Option Int)
      (md : Option MeetupDetails) (notes : Option String) (now : Nat)
      (h : createOrder st u lid fp np md notes now = .ok st') : OStep st st'
  | status (st st' : St) (u : Nat) (role : Role) (oid : Nat) (s : OrderStatus)
      (note : String) (now : Nat)
      (h : updateOrderStatus st u role oid s note now = .ok st') : OStep st st'
  | cancel (st st' : St) (u oid : Nat) (reason : String) (now : Nat)
      (h : cancelOrder st u oid reason now = .ok st') : OStep st st'
  | dispute (st st' : St) (u oid : Nat) (reason : String) (now : Nat)
      (h : initiateDispute st u oid reason now = .ok st') : OStep st st'
  | rate (st st' : St) (u oid score : Nat) (review : String) (now : Nat)
      (h : addRating st u oid score review now = .ok st') : OStep st st'
  | meetup (st st' : St) (u oid : Nat) (d : MeetupDetails) (now : Nat)
      (h : updateMeetupDetails st u oid d now = .ok st') : OStep st st'
  | notes (st st' : St) (u oid : Nat) (n : String)
      (h : addNotes st u oid n = .ok st') : OStep st st'

/-- The chat counter invariant: a positive unread counter for a user is
backed by at least one unread message that user did not send.  It holds for
freshly created chats (counters zero) and is preserved by every chat
operation; `markAsRead` relies on it to actually zero the counter. -/
def ChatCounterInv (c : Chat) : Prop :=
  ∀ u, 0 < c.unread u → ∃ m ∈ c.messages, m.isRead = false ∧ m.sender ≠ u

/-- The counter invariant at a single user (what `markAsRead u` needs). -/
def CounterBacked (c : Chat) (u : Nat) : Prop :=
  0 < c.unread u → ∃ m ∈ c.messages, m.isRead = false ∧ m.sender ≠ u

instance (c : Chat) (u : Nat) : Decidable (CounterBacked c u) := by
  unfold CounterBacked; infer_instance

/-- Well-formedness of an API-built chat: exactly two distinct participants
(enforced by the pre-save hook and `findOrCreate`), every message sent by a
participant, and every positive unread counter belonging to a participant
and backed by an unread message from the other party.  `findOrCreate`
establishes it and every chat operation preserves it (see the `chatWF_*`
lemmas), which justifies the `CounterBacked` hypotheses of the
`markAsRead` theorems. -/
structure ChatWF (c : Chat) : Prop where
  two : ∃ a b, a ≠ b ∧ c.participants = [a, b]
  senders : ∀ m ∈ c.messages, m.sender ∈ c.participants
  counters : ∀ v, 0 < c.unread v → v ∈ c.participants ∧
    ∃ m ∈ c.messages, m.isRead = false ∧ m.sender ≠ v

/-- The chat `chatSchema.statics.findOrCreate` creates on first contact:
two participants, no messages, both unread counters zero. -/
def freshChat (buyerId sellerId listingId : Nat) : Chat :=
  { participants := [buyerId, sellerId], listing := listingId, messages := [],
    lastMessage := none, unreadCount := [(buyerId, 0), (sellerId, 0)],
    isActive := true, blockedBy := [] }

/-- All scores a user has received across completed orders, in either role:
ratings authored by buyers on orders where the user sold, and ratings
authored by sellers on orders where the user bought.  This is the aggregate
the claim (C4) describes. -/
def allReceivedScores (orders : List (Nat × Order)) (u : Nat) : List Nat :=
  scoresReceivedAsSeller orders u ++ scoresReceivedAsBuyer orders u

/-! ## Concrete fixtures for witnesses and counterexamples -/

/-- An active listing sold by user 1. -/
def listing1 : Listing :=
  { seller := 1, title := "Calc book", description := "good condition", images := ["u1"],
    category := "textbooks", price := 50, status := .active }

/-- A pending order: buyer 2, seller 1, listing 7. -/
def orderPending : Order :=
  { buyer := 2, seller := 1, listing := 7, listingSnapshot := ⟨"t", "d", ["u1"], "c"⟩,
    price := 50, negotiatedPrice := none, finalPrice := 45, status := .pending,
    meetupDetails := none, timeline := [⟨.pending, 0, "Order created"⟩],
    rating := ⟨none, none⟩, cancellation := none, dispute := none, notes := ⟨none, none⟩ }

/-- Store holding the pending order. -/
def stPending : St :=
  { orders := [(10, orderPending)], nextOrder := 11, listings := [(7, listing1)],
    users := [(1, ⟨0, 0, [10]⟩), (2, ⟨0, 0, [10]⟩)], chats := [] }

/-- The store after buyer 2 legally confirms order 10. -/
def stConfirmed : St :=
  St.after stPending (updateOrderStatus stPending 2 .student 10 .confirmed "ok" 4)

/-- A completed, unrated order: buyer 2, seller 1, listing 7. -/
def orderCompleted : Order :=
  { orderPending with
    status := .completed
    timeline := orderPending.timeline ++ [⟨.completed, 3, ""⟩] }

/-- User 1 also *bought* an order (id 11, from seller 3) on which the seller
already rated them with score 1: a score user 1 received in the buyer role. -/
def orderRatedAsBuyer : Order :=
  { buyer := 1, seller := 3, listing := 8, listingSnapshot := ⟨"t2", "d2", ["u2"], "c"⟩,
    price := 20, negotiatedPrice := none, finalPrice := 20, status := .completed,
    meetupDetails := none,
    timeline := [⟨.pending, 0, "Order created"⟩, ⟨.completed, 2, ""⟩],
    rating := ⟨none, some ⟨1, "late", 2⟩⟩, cancellation := none, dispute := none,
    notes := ⟨none, none⟩ }

/-- Store for the rating claims: order 10 completed and unrated, order 11
already carrying a score user 1 received as buyer. -/
def stRating : St :=
  { orders := [(10, orderCompleted), (11, orderRatedAsBuyer)], nextOrder := 12,
    listings := [(7, { listing1 with status := .sold })],
    users := [(1, ⟨0, 0, [10, 11]⟩), (2, ⟨0, 0, [10]⟩), (3, ⟨0, 0, [11]⟩)], chats := [] }

/-- The store after buyer 2 rates order 10 with score 5. -/
def stRated : St :=
  St.after stRating (addRating stRating 2 10 5 "great" 6)

/-- A fresh two-party chat between users 1 and 2 about listing 7. -/
def chatFresh : Chat :=
  { participants := [1, 2], listing := 7, messages := [], lastMessage := none,
    unreadCount := [(1, 0), (2, 0)], isActive := true, blockedBy := [] }

/-- An unread pending offer of 40 from user 2. -/
def offerMsg : Message :=
  { id := 0, sender := 2, content := "Would you take 40?", type := .offer,
    image := none, offer := ⟨some 40, .pending⟩, isRead := false,
    readAt := none, createdAt := some 1 }

/-- A chat holding one unread pending-offer message from user 2, with user
1's unread counter at 1. -/
def chatOffer : Chat :=
  { chatFresh with
    messages := [offerMsg]
    lastMessage := some ⟨"Would you take 40?", 2, none⟩
    unreadCount := [(1, 1), (2, 0)] }

/-- Store holding the offer chat (id 20) and its listing. -/
def stChat : St :=
  { orders := [], nextOrder := 0, listings := [(7, listing1)],
    users := [(1, ⟨0, 0, []⟩), (2, ⟨0, 0, []⟩)], chats := [(20, chatOffer)] }

/-- Store holding the fresh chat (id 21) and its listing. -/
def stChatFresh : St :=
  { orders := [], nextOrder := 0, listings := [(7, listing1)],
    users := [(1, ⟨0, 0, []⟩), (2, ⟨0, 0, []⟩)], chats := [(21, chatFresh)] }

/-- The store after participant 1 sends "hello" in the fresh chat. -/
def stSent : St :=
  St.after stChatFresh (sendMessageEndpoint stChatFresh 1 21 "hello" .text none none 99)

/-- The store after participant 1 sends an `image`-typed message with *no*
image payload in the fresh chat. -/
def stSentImg : St :=
  St.after stChatFresh (sendMessageEndpoint stChatFresh 1 21 "pic" .image none none 50)

/-! ## Helper lemmas -/

theorem findById_setById_self {α : Type} (l : List (Nat × α)) (i : Nat) (a b : α)
    (h : findById l i = some a) : findById (setById l i b) i = some b := by
  induction l with
  | nil => simp [findById] at h
  | cons p rest ih =>
    obtain ⟨k, x⟩ := p
    by_cases hk : i = k
    · subst hk
      simp [setById, findById]
    · simp [findById, hk] at h
      have hk' : ¬ (k = i) := fun hkk => hk hkk.symm
      simp [setById, hk', findById, hk]
      exact ih h

theorem findById_setById_ne {α : Type} (l : List (Nat × α)) (i j : Nat) (b : α)
    (h : j ≠ i) : findById (setById l i b) j = findById l j := by
  induction l with
  | nil => simp [setById]
  | cons p rest ih =>
    obtain ⟨k, x⟩ := p
    by_cases hk : k = i
    · subst hk
      simp [setById, findById, h]
    · simp [setById, hk, findById]
      by_cases hj : j = k
      · simp [hj]
      · simp [hj, ih]

theorem mem_setById {α : Type} (l : List (Nat × α)) (i : Nat) (b : α) :
    ∀ p ∈ setById l i b, p ∈ l ∨ p = (i, b) := by
  induction l with
  | nil => simp [setById]
  | cons q rest ih =>
    obtain ⟨k, x⟩ := q
    intro p hp
    by_cases hk : k = i
    · subst hk
      simp [setById] at hp
      rcases hp with h | h
      · right; simp [h]
      · left; simp [h]
    · simp [setById, hk] at hp
      rcases hp with h | h
      · left; simp [h]
      · rcases ih p h with h' | h'
        · left; simp [h']
        · right; exact h'

theorem findById_mem {α : Type} (l : List (Nat × α)) (i : Nat) (a : α)
    (h : findById l i = some a) : (i, a) ∈ l := by
  induction l with
  | nil => simp [findById] at h
  | cons p rest ih =>
    obtain ⟨k, x⟩ := p
    by_cases hk : i = k
    · subst hk
      simp [findById] at h
      simp [h]
    · simp [findById, hk] at h
      simp [ih h]

theorem getLast?_append_singleton {α : Type} (l : List α) (a : α) :
    (l ++ [a]).getLast? = some a := by
  induction l with
  | nil => rfl
  | cons b rest ih =>
    rw [List.cons_append, List.getLast?_cons]
    simp [ih]

/-! ## C1: transition-table enforcement -/

/-- **C1 counterexample.** The claim says every status-changing entry point
rejects pairs outside the §4.1 table, and that `disputed` is only reachable
from `in-progress`.  But `initiateDispute` only guards against
`status === 'disputed'`: on a *pending* order (buyer 2, order 10) it
succeeds and moves the order to `disputed`, although
(pending, disputed) is not an edge of the table. -/
theorem c1_dispute_from_pending_succeeds :
    OrderStatus.disputed ∉ validTransitions OrderStatus.pending ∧
    initiateDispute stPending 2 10 "broken" 5 =
      .ok { stPending with orders := [(10, orderPending.initiateDispute 2 "broken" 5)] } ∧
    (findById (St.after stPending (initiateDispute stPending 2 10 "broken" 5)).orders 10).map
      Order.status = some .disputed := by
  refine ⟨by decide, by decide, by decide⟩

/-- **C1 (amended).** For an order that exists and an authorized caller:
`updateOrderStatus` rejects any target outside the §4.1 table with an
`InvalidTransition` error naming the current and requested status, leaving
the store unchanged; `cancelOrder` rejects whenever `canBeCancelled` fails
(covering every source without a cancel edge), unchanged; `initiateDispute`
rejects only a currently `disputed` order (unchanged) and otherwise succeeds
from *any* status — so the table is enforced by `updateOrderStatus` alone,
and `disputed` is reachable from every non-disputed status, not only from
`in-progress`. -/
theorem c1_transition_guards (st : St) (u : Nat) (role : Role) (oid : Nat)
    (o : Order) (target : OrderStatus) (note reason : String) (now : Nat)
    (ho : findById st.orders oid = some o)
    (hauth : u = o.buyer ∨ u = o.seller ∨ role = .admin)
    (hub : u = o.buyer ∨ u = o.seller)
    (hr : reason ≠ "") :
    (target ∉ validTransitions o.status →
      updateOrderStatus st u role oid target note now =
        .error (.invalidTransition o.status target) ∧
      St.after st (updateOrderStatus st u role oid target note now) = st) ∧
    (o.canBeCancelled = false →
      cancelOrder st u oid reason now =
        .error (.badRequest "This order cannot be cancelled at this stage") ∧
      St.after st (cancelOrder st u oid reason now) = st) ∧
    (o.status = .disputed →
      initiateDispute st u oid reason now =
        .error (.badRequest "This order is already in dispute") ∧
      St.after st (initiateDispute st u oid reason now) = st) ∧
    (o.status ≠ .disputed →
      initiateDispute st u oid reason now =
        .ok { st with orders := setById st.orders oid (o.initiateDispute u reason now) }) := by
  have hauth' : ¬(¬(u = o.buyer) ∧ ¬(u = o.seller) ∧ role ≠ .admin) := by
    rcases hauth with h | h | h <;> simp [h]
  have hub' : ¬(o.buyer ≠ u ∧ o.seller ≠ u) := by
    rcases hub with h | h <;> simp [h]
  refine ⟨fun htr => ?_, fun hcc => ?_, fun hd => ?_, fun hnd => ?_⟩
  · have : updateOrderStatus st u role oid target note now =
        .error (.invalidTransition o.status target) := by
      simp only [updateOrderStatus, ho]
      rw [if_neg hauth', if_pos htr]
    exact ⟨this, by rw [this]; rfl⟩
  · have : cancelOrder st u oid reason now =
        .error (.badRequest "This order cannot be cancelled at this stage") := by
      simp only [cancelOrder, ho]
      rw [if_neg hr, if_neg hub', if_pos (by simp [hcc])]
    exact ⟨this, by rw [this]; rfl⟩
  · have : initiateDispute st u oid reason now =
        .error (.badRequest "This order is already in dispute") := by
      simp only [initiateDispute, ho]
      rw [if_neg hr, if_neg hub', if_pos hd]
    exact ⟨this, by rw [this]; rfl⟩
  · simp only [initiateDispute, ho]
    rw [if_neg hr, if_neg hub', if_neg hnd]

/-- Witness for C1 (amended): on the concrete pending order, buyer 2's
request `pending → completed` is rejected naming both states and the store
is untouched. -/
theorem c1_transition_guards_witness :
    updateOrderStatus stPending 2 .student 10 .completed "n" 9 =
      .error (.invalidTransition .pending .completed) ∧
    St.after stPending (updateOrderStatus stPending 2 .student 10 .completed "n" 9) =
      stPending :=
  (c1_transition_guards stPending 2 .student 10 orderPending .completed "n" "r" 9
      (by decide) (by decide) (by decide) (by decide)).1 (by decide)

/-! ## C2: status = last timeline entry, timeline append-only -/

theorem orderInv_updateStatus (o : Order) (s : OrderStatus) (now : Nat) (note : String) :
    OrderInv (o.updateStatus s now note) := by
  simp [OrderInv, Order.updateStatus, getLast?_append_singleton]

theorem orderInv_cancel (o : Order) (u : Nat) (reason : String) (now : Nat) :
    OrderInv (o.cancel u reason now) := by
  simp [OrderInv, Order.cancel, getLast?_append_singleton]

theorem orderInv_dispute (o : Order) (u : Nat) (reason : String) (now : Nat) :
    OrderInv (o.initiateDispute u reason now) := by
  simp [OrderInv, Order.initiateDispute, getLast?_append_singleton]

/-- Saving one fetched order back with an invariant-preserving, timeline-
extending update keeps the whole store well-formed and only appends to
timelines. -/
theorem ordersOK_ext_setById (st : St) (oid : Nat) (o o' : Order)
    (hOK : OrdersOK st) (ho : findById st.orders oid = some o)
    (hinv : OrderInv o') (hext : ∃ tail, o'.timeline = o.timeline ++ tail) :
    (∀ p ∈ setById st.orders oid o', OrderInv p.2 ∧ p.1 < st.nextOrder) ∧
    (∀ i ob, findById st.orders i = some ob →
      ∃ ob', findById (setById st.orders oid o') i = some ob' ∧
        ∃ tail, ob'.timeline = ob.timeline ++ tail) := by
  constructor
  · intro p hp
    rcases mem_setById st.orders oid o' p hp with h | h
    · exact hOK p h
    · have hm := hOK _ (findById_mem st.orders oid o ho)
      rw [h]
      exact ⟨hinv, hm.2⟩
  · intro i ob hi
    by_cases hio : i = oid
    · subst hio
      rw [hi] at ho
      injection ho with ho
      subst ho
      exact ⟨o', findById_setById_self _ _ _ _ hi, hext⟩
    · exact ⟨ob, by rw [findById_setById_ne _ _ _ _ hio]; exact hi, ⟨[], by simp⟩⟩

/-- **C2.** After creation and after every successful order operation
(`createOrder`, `updateOrderStatus`, `cancelOrder`, `initiateDispute`,
`addRating`, `updateMeetupDetails`, `addNotes`), every order's `status`
equals the status of the last element of its `timeline`, and the operation
only appends to any pre-existing order's timeline (no prior entry is
mutated or removed). -/
theorem c2_timeline_invariant (st st' : St) (h : OStep st st') (hOK : OrdersOK st) :
    OrdersOK st' ∧ TimelineExt st st' := by
  cases h with
  | create u lid fp np md notes now h =>
    simp only [createOrder] at h
    split at h
    · simp at h
    · rename_i l hl
      split at h
      · simp at h
      · split at h
        · simp at h
        · split at h
          · simp at h
          · injection h with h
            subst h
            constructor
            · intro p hp
              simp only [List.mem_cons] at hp
              rcases hp with hp | hp
              · subst hp
                refine ⟨by simp [OrderInv, newOrder], by simp⟩
              · have := hOK p hp
                exact ⟨this.1, by simpa using Nat.lt_succ_of_lt this.2⟩
            · intro i ob hi
              have hlt := (hOK _ (findById_mem st.orders i ob hi)).2
              refine ⟨ob, ?_, ⟨[], by simp⟩⟩
              simpa [findById, Nat.ne_of_lt hlt] using hi
  | status u role oid s note now h =>
    simp only [updateOrderStatus] at h
    split at h
    · simp at h
    · rename_i o ho
      split at h
      · simp at h
      · split at h
        · simp at h
        · injection h with h
          subst h
          exact ordersOK_ext_setById st oid o _ hOK ho
            (orderInv_updateStatus o s now note) ⟨[⟨s, now, note⟩], rfl⟩
  | cancel u oid reason now h =>
    simp only [cancelOrder] at h
    split at h
    · simp at h
    · split at h
      · simp at h
      · rename_i o ho
        split at h
        · simp at h
        · split at h
          · simp at h
          · injection h with h
            subst h
            exact ordersOK_ext_setById st oid o _ hOK ho
              (orderInv_cancel o u reason now)
              ⟨[⟨.cancelled, now, "Cancelled by user. Reason: " ++ reason⟩], rfl⟩
  | dispute u oid reason now h =>
    simp only [initiateDispute] at h
    split at h
    · simp at h
    · split at h
      · simp at h
      · rename_i o ho
        split at h
        · simp at h
        · split at h
          · simp at h
          · injection h with h
            subst h
            exact ordersOK_ext_setById st oid o _ hOK ho
              (orderInv_dispute o u reason now)
              ⟨[⟨.disputed, now, "Dispute initiated: " ++ reason⟩], rfl⟩
  | rate u oid score review now h =>
    simp only [addRating] at h
    split at h
    · simp at h
    · rename_i o ho
      split at h
      · simp at h
      · split at h
        · simp at h
        · split at h
          · simp at h
          · injection h with h
            subst h
            have hoinv := (hOK _ (findById_mem st.orders oid o ho)).1
            refine ordersOK_ext_setById st oid o _ hOK ho ?_ ?_
            · by_cases hb : (decide (u = o.buyer)) = true <;>
                simp [withSlot, hb, OrderInv] <;> simpa [OrderInv] using hoinv
            · by_cases hb : (decide (u = o.buyer)) = true <;>
                simp [withSlot, hb]
  | meetup u oid d now h =>
    simp only [updateMeetupDetails] at h
    split at h
    · simp at h
    · rename_i o ho
      split at h
      · simp at h
      · injection h with h
        subst h
        have hoinv := (hOK _ (findById_mem st.orders oid o ho)).1
        by_cases hc : o.status = .confirmed
        · simp only [hc, if_pos rfl]
          exact ordersOK_ext_setById st oid o _ hOK ho
            (orderInv_updateStatus _ _ _ _)
            ⟨[⟨.meetupScheduled, now, "Meetup details added"⟩], rfl⟩
        · simp only [if_neg hc]
          exact ordersOK_ext_setById st oid o _ hOK ho
            (by simpa [OrderInv] using hoinv) ⟨[], by simp⟩
  | notes u oid n h =>
    simp only [addNotes] at h
    split at h
    · simp at h
    · split at h
      · simp at h
      · rename_i o ho
        split at h
        · simp at h
        · injection h with h
          subst h
          have hoinv := (hOK _ (findById_mem st.orders oid o ho)).1
          by_cases hb : u = o.buyer
          · simp only [if_pos hb]
            exact ordersOK_ext_setById st oid o _ hOK ho
              (by simpa [OrderInv] using hoinv) ⟨[], by simp⟩
          · simp only [if_neg hb]
            exact ordersOK_ext_setById st oid o _ hOK ho
              (by simpa [OrderInv] using hoinv) ⟨[], by simp⟩

/-- Witness for C2: confirming the concrete pending order is a step, the
hypotheses hold, and the conclusion follows by the theorem. -/
theorem c2_timeline_invariant_witness :
    OrdersOK stConfirmed ∧ TimelineExt stPending stConfirmed :=
  c2_timeline_invariant stPending stConfirmed
    (OStep.status stPending stConfirmed 2 .student 10 .confirmed "ok" 4 (by decide))
    (by decide)

/-! ## C3: markAsRead effect and idempotence -/

theorem markAsRead_messages (c : Chat) (u now : Nat) :
    (c.markAsRead u now).messages = c.messages.map (markMsg u now) := by
  simp only [Chat.markAsRead, Chat.setUnread]
  split <;> rfl

theorem markAsRead_frame (c : Chat) (u now : Nat) :
    (c.markAsRead u now).participants = c.participants ∧
    (c.markAsRead u now).listing = c.listing ∧
    (c.markAsRead u now).lastMessage = c.lastMessage ∧
    (c.markAsRead u now).isActive = c.isActive ∧
    (c.markAsRead u now).blockedBy = c.blockedBy := by
  simp only [Chat.markAsRead, Chat.setUnread]
  split <;> simp

/-- With the counter invariant at `u`, `markAsRead` leaves the caller's
unread counter at zero (either it marked something and wrote the zero, or
the counter was already zero). -/
theorem markAsRead_unread_zero (c : Chat) (u now : Nat) (hb : CounterBacked c u) :
    (c.markAsRead u now).unread u = 0 := by
  simp only [Chat.markAsRead]
  split
  · rename_i hany
    simp only [Chat.setUnread, Chat.unread]
    split
    · rename_i hsome
      obtain ⟨n, hn⟩ := Option.isSome_iff_exists.mp hsome
      simp [findById_setById_self _ _ _ _ hn]
    · simp [findById]
  · rename_i hany
    have hz : ¬ 0 < c.unread u := by
      intro hpos
      obtain ⟨m, hm, hr, hs⟩ := hb hpos
      exact hany (by simp only [List.any_eq_true]; exact ⟨m, hm, by simp [hr, hs]⟩)
    simpa [Chat.unread] using Nat.eq_zero_of_not_pos hz

theorem markMsg_idem (u now now' : Nat) (m : Message) :
    markMsg u now' (markMsg u now m) = markMsg u now m := by
  by_cases hc : m.isRead = false ∧ m.sender ≠ u <;> simp [markMsg, hc]

/-- When no message qualifies, `markAsRead` only maps the (no-op) marker
over the messages and does not touch the counter. -/
theorem markAsRead_of_no_unread (d : Chat) (u now' : Nat)
    (h : (d.messages.any fun m => m.isRead = false ∧ m.sender ≠ u) = false) :
    d.markAsRead u now' = { d with messages := d.messages.map (markMsg u now') } := by
  simp only [Chat.markAsRead, h, Bool.false_eq_true, if_false]

/-- A second consecutive `markAsRead` by the same user is a no-op: the chat
document (messages, counters, everything) is unchanged. -/
theorem markAsRead_idem (c : Chat) (u now now' : Nat) :
    (c.markAsRead u now).markAsRead u now' = c.markAsRead u now := by
  have hmsgs := markAsRead_messages c u now
  have hany : ((c.markAsRead u now).messages.any
      fun m => m.isRead = false ∧ m.sender ≠ u) = false := by
    rw [hmsgs]
    rw [List.any_map]
    simp only [List.any_eq_false]
    intro m hm
    by_cases hc : m.isRead = false ∧ m.sender ≠ u <;>
      simp [Function.comp, markMsg, hc]
  have hmap : (c.markAsRead u now).messages.map (markMsg u now') =
      (c.markAsRead u now).messages := by
    rw [hmsgs, List.map_map]
    exact List.map_congr_left fun m _ => markMsg_idem u now now' m
  rw [markAsRead_of_no_unread _ _ _ hany, hmap]

/-- **C3.** `markAsRead(user)` marks exactly the messages not authored by
that user and not yet read (setting the read flag and timestamp), leaves
the other messages untouched, leaves the user's unread counter at zero
(given the counter invariant: a positive counter is backed by an unread
message from the other party, which holds for every chat the API can
build), and is idempotent: the second consecutive call changes nothing —
no message is mutated, no error is raised, and the counter is zero both
times. -/
theorem c3_markAsRead_effect (c : Chat) (u t1 t2 : Nat) (hb : CounterBacked c u) :
    (c.markAsRead u t1).messages = c.messages.map (markMsg u t1) ∧
    (∀ m, m.isRead = false → m.sender ≠ u →
      markMsg u t1 m = { m with isRead := true, readAt := some t1 }) ∧
    (∀ m, (m.isRead = true ∨ m.sender = u) → markMsg u t1 m = m) ∧
    (c.markAsRead u t1).unread u = 0 ∧
    (c.markAsRead u t1).markAsRead u t2 = c.markAsRead u t1 ∧
    ((c.markAsRead u t1).markAsRead u t2).unread u = 0 := by
  refine ⟨markAsRead_messages c u t1, ?_, ?_, markAsRead_unread_zero c u t1 hb, markAsRead_idem c u t1 t2, ?_⟩
  · intro m hr hs
    simp [markMsg, hr, hs]
  · intro m hm
    rcases hm with hm | hm <;> simp [markMsg, hm]
  · rw [markAsRead_idem c u t1 t2]
    exact markAsRead_unread_zero c u t1 hb

/-- Witness for C3 at the concrete offer chat: user 1's counter is backed
(message from user 2 is unread), and both consecutive calls yield unread
counter zero with the second call a strict no-op. -/
theorem c3_markAsRead_effect_witness :
    (chatOffer.markAsRead 1 9).messages = chatOffer.messages.map (markMsg 1 9) ∧
    (∀ m, m.isRead = false → m.sender ≠ 1 →
      markMsg 1 9 m = { m with isRead := true, readAt := some 9 }) ∧
    (∀ m, (m.isRead = true ∨ m.sender = 1) → markMsg 1 9 m = m) ∧
    (chatOffer.markAsRead 1 9).unread 1 = 0 ∧
    (chatOffer.markAsRead 1 9).markAsRead 1 11 = chatOffer.markAsRead 1 9 ∧
    ((chatOffer.markAsRead 1 9).markAsRead 1 11).unread 1 = 0 :=
  c3_markAsRead_effect chatOffer 1 9 11 (by decide)

/-! ## C10: getChatById is not a pure read -/

/-- **C10.** For every call by a participant, `getChatById` performs the
`markAsRead` side effect: the stored chat is replaced by
`chat.markAsRead(user)`, in which every unread message not authored by the
caller is marked read (flag + timestamp) and the caller's unread counter is
zero (under the counter invariant, which every API-built chat satisfies);
participants, listing, lastMessage cache, isActive and blockedBy are
untouched, and nothing else in the store changes. -/
theorem c10_getChatById_marks_read (st : St) (u cid now : Nat) (c : Chat)
    (hc : findById st.chats cid = some c) (hp : c.isParticipant u = true)
    (hb : CounterBacked c u) :
    getChatById st u cid now =
      .ok { st with chats := setById st.chats cid (c.markAsRead u now) } ∧
    (c.markAsRead u now).messages = c.messages.map (markMsg u now) ∧
    (∀ m, m.isRead = false → m.sender ≠ u →
      markMsg u now m = { m with isRead := true, readAt := some now }) ∧
    (c.markAsRead u now).unread u = 0 ∧
    (c.markAsRead u now).participants = c.participants ∧
    (c.markAsRead u now).listing = c.listing ∧
    (c.markAsRead u now).lastMessage = c.lastMessage ∧
    (c.markAsRead u now).isActive = c.isActive ∧
    (c.markAsRead u now).blockedBy = c.blockedBy := by
  obtain ⟨f1, f2, f3, f4, f5⟩ := markAsRead_frame c u now
  refine ⟨?_, markAsRead_messages c u now, ?_,
    markAsRead_unread_zero c u now hb, f1, f2, f3, f4, f5⟩
  · simp only [getChatById, hc]
    rw [if_neg (by simp [hp])]
  · intro m hr hs
    simp [markMsg, hr, hs]

/-- Witness for C10: participant 1 fetching the concrete offer chat gets the
marked-as-read state written back. -/
theorem c10_getChatById_marks_read_witness :
    getChatById stChat 1 20 9 =
      .ok { stChat with chats := setById stChat.chats 20 (chatOffer.markAsRead 1 9) } ∧
    (chatOffer.markAsRead 1 9).messages = chatOffer.messages.map (markMsg 1 9) ∧
    (∀ m, m.isRead = false → m.sender ≠ 1 →
      markMsg 1 9 m = { m with isRead := true, readAt := some 9 }) ∧
    (chatOffer.markAsRead 1 9).unread 1 = 0 ∧
    (chatOffer.markAsRead 1 9).participants = chatOffer.participants ∧
    (chatOffer.markAsRead 1 9).listing = chatOffer.listing ∧
    (chatOffer.markAsRead 1 9).lastMessage = chatOffer.lastMessage ∧
    (chatOffer.markAsRead 1 9).isActive = chatOffer.isActive ∧
    (chatOffer.markAsRead 1 9).blockedBy = chatOffer.blockedBy :=
  c10_getChatById_marks_read stChat 1 20 9 chatOffer (by decide) (by decide) (by decide)

/-! ## C4: rating aggregation -/

theorem foldl_add_map {α : Type} (f : α → Nat) (l : List α) (n : Nat) :
    l.foldl (fun s p => s + f p) n = n + (l.map f).sum := by
  induction l generalizing n with
  | nil => simp
  | cons a t ih => simp [ih, Nat.add_assoc]

/-- The buyer-rater scan equals mean/count of the scores the target received
in the *seller* role. -/
theorem recomputeRating_buyer (orders : List (Nat × Order)) (u : Nat) :
    recomputeRating orders u true =
      (meanScore (scoresReceivedAsSeller orders u),
        (scoresReceivedAsSeller orders u).length) := by
  have hS : scoresReceivedAsSeller orders u =
      (orders.filter fun p => p.2.seller = u ∧ p.2.status = .completed ∧
          p.2.rating.buyerRating.isSome).map
        fun p => (p.2.rating.buyerRating.map RatingSlot.score).getD 0 := by
    induction orders with
    | nil => rfl
    | cons p t ih =>
      by_cases hA : p.2.seller = u
      · by_cases hB : p.2.status = .completed
        · cases hbr : p.2.rating.buyerRating with
          | none => simp [scoresReceivedAsSeller, List.filterMap_cons, hA, hB, hbr,
              List.filter_cons, ih, scoresReceivedAsSeller] at ih ⊢; exact ih
          | some slot => simp [scoresReceivedAsSeller, List.filterMap_cons, hA, hB, hbr,
              List.filter_cons] at ih ⊢; exact ih
        · simp [scoresReceivedAsSeller, List.filterMap_cons, hA, hB, List.filter_cons] at ih ⊢
          exact ih
      · simp [scoresReceivedAsSeller, List.filterMap_cons, hA, List.filter_cons] at ih ⊢
        exact ih
  simp only [recomputeRating]
  rw [hS]
  simp [foldl_add_map, meanScore]

/-- The seller-rater scan equals mean/count of the scores the target received
in the *buyer* role. -/
theorem recomputeRating_seller (orders : List (Nat × Order)) (u : Nat) :
    recomputeRating orders u false =
      (meanScore (scoresReceivedAsBuyer orders u),
        (scoresReceivedAsBuyer orders u).length) := by
  have hS : scoresReceivedAsBuyer orders u =
      (orders.filter fun p => p.2.buyer = u ∧ p.2.status = .completed ∧
          p.2.rating.sellerRating.isSome).map
        fun p => (p.2.rating.sellerRating.map RatingSlot.score).getD 0 := by
    induction orders with
    | nil => rfl
    | cons p t ih =>
      by_cases hA : p.2.buyer = u
      · by_cases hB : p.2.status = .completed
        · cases hbr : p.2.rating.sellerRating with
          | none => simp [scoresReceivedAsBuyer, List.filterMap_cons, hA, hB, hbr,
              List.filter_cons] at ih ⊢; exact ih
          | some slot => simp [scoresReceivedAsBuyer, List.filterMap_cons, hA, hB, hbr,
              List.filter_cons] at ih ⊢; exact ih
        · simp [scoresReceivedAsBuyer, List.filterMap_cons, hA, hB, List.filter_cons] at ih ⊢
          exact ih
      · simp [scoresReceivedAsBuyer, List.filterMap_cons, hA, List.filter_cons] at ih ⊢
        exact ih
  simp only [recomputeRating, Bool.false_eq_true, if_false]
  rw [hS]
  simp [foldl_add_map, meanScore]

theorem findById_setUserRating (users : List (Nat × UserProfile)) (tu : Nat)
    (a : ℚ) (n : Nat) :
    findById (setUserRating users tu a n) tu =
      (findById users tu).map fun prof =>
        { prof with ratingAverage := a, ratingCount := n } := by
  simp only [setUserRating]
  cases hu : findById users tu with
  | none => simp [hu]
  | some prof => simp [findById_setById_self _ _ _ _ hu]

/-- **C4 counterexample.** User 1 has received score 5 as a *seller*
(order 10, rated by buyer 2) and score 1 as a *buyer* (order 11, rated by
its seller).  The claim's aggregate over both roles is mean 3 of count 2,
but after `addRating` the persisted profile of user 1 is average 5, count 1:
the recompute only scans the single role matching the current rating. -/
theorem c4_single_role_counterexample :
    addRating stRating 2 10 5 "great" 6 = .ok stRated ∧
    (findById stRated.users 1).map (fun p => p.ratingCount) = some 1 ∧
    allReceivedScores stRated.orders 1 = [5, 1] ∧
    meanScore (allReceivedScores stRated.orders 1) = 3 ∧
    (allReceivedScores stRated.orders 1).length = 2 ∧
    (1 : Nat) ≠ 2 := by
  refine ⟨rfl, by decide, by decide, ?_, by decide, by decide⟩
  rw [show allReceivedScores stRated.orders 1 = [5, 1] from by decide]
  norm_num [meanScore]

/-- **C4 (amended).** After a successful `addRating`, the counterparty's
persisted profile rating is the exact arithmetic mean and count of the
scores that party has received *in the one corresponding role only*: when
the buyer rates, the seller's profile aggregates the `buyerRating` scores
of the seller's completed orders; when the seller rates, the buyer's
profile aggregates the `sellerRating` scores of the buyer's completed
orders.  Scores received in the other role are not included. -/
theorem c4_rating_recompute (st st' : St) (u oid score : Nat) (review : String)
    (now : Nat) (o : Order) (ho : findById st.orders oid = some o)
    (h : addRating st u oid score review now = .ok st') :
    (u = o.buyer →
      findById st'.users o.seller = (findById st.users o.seller).map fun prof =>
        { prof with
          ratingAverage := meanScore (scoresReceivedAsSeller st'.orders o.seller)
          ratingCount := (scoresReceivedAsSeller st'.orders o.seller).length }) ∧
    (u ≠ o.buyer →
      findById st'.users o.buyer = (findById st.users o.buyer).map fun prof =>
        { prof with
          ratingAverage := meanScore (scoresReceivedAsBuyer st'.orders o.buyer)
          ratingCount := (scoresReceivedAsBuyer st'.orders o.buyer).length }) := by
  simp only [addRating, ho] at h
  split at h
  · simp at h
  · split at h
    · simp at h
    · split at h
      · simp at h
      · by_cases hb : u = o.buyer
        · have hB : (decide (u = o.buyer)) = true := decide_eq_true hb
          simp only [hB, if_true] at h
          injection h with h
          subst h
          refine ⟨fun _ => ?_, fun hb' => absurd hb hb'⟩
          simp only [recomputeRating_buyer]
          rw [findById_setUserRating]
        · have hB : (decide (u = o.buyer)) = false := decide_eq_false hb
          simp only [hB, Bool.false_eq_true, if_false] at h
          injection h with h
          subst h
          refine ⟨fun hb' => absurd hb' hb, fun _ => ?_⟩
          simp only [recomputeRating_seller]
          rw [findById_setUserRating]

/-- Witness for C4 (amended) at the concrete rating store: after buyer 2
rates order 10, seller 1's profile holds mean/count of the seller-role
scores only. -/
theorem c4_rating_recompute_witness :
    findById stRated.users 1 = (findById stRating.users 1).map (fun prof =>
      { prof with
        ratingAverage := meanScore (scoresReceivedAsSeller stRated.orders 1)
        ratingCount := (scoresReceivedAsSeller stRated.orders 1).length }) :=
  (c4_rating_recompute stRating stRated 2 10 5 "great" 6 orderCompleted
      (by decide) rfl).1 (by decide)

/-! ## C5: listing status synchronized with the order lifecycle -/

theorem findById_setListingStatus (listings : List (Nat × Listing)) (lid : Nat)
    (s : ListingStatus) :
    findById (setListingStatus listings lid s) lid =
      (findById listings lid).map fun l => { l with status := s } := by
  simp only [setListingStatus]
  cases hl : findById listings lid with
  | none => simp [hl]
  | some l => simp [findById_setById_self _ _ _ _ hl]

/-- **C5.** Creating an order against an active listing (buyer distinct from
the seller, final price ≥ 0) succeeds, the new order is `pending` with
exactly one timeline entry, and the listing flips to `reserved`; a
successful `updateOrderStatus` to `completed` flips the listing to `sold`;
to `cancelled` (or a successful `cancelOrder`) flips it back to `active`. -/
theorem c5_listing_sync (st : St) :
    (∀ u lid fp np md notes now l,
      findById st.listings lid = some l → l.status = .active → l.seller ≠ u →
      ¬(fp < 0) →
      ∃ st', createOrder st u lid fp np md notes now = .ok st' ∧
        (∃ o, findById st'.orders st.nextOrder = some o ∧ o.status = .pending ∧
          o.timeline.length = 1 ∧ o.buyer = u ∧ o.seller = l.seller) ∧
        findById st'.listings lid = some { l with status := .reserved }) ∧
    (∀ u role oid note now st' o, findById st.orders oid = some o →
      updateOrderStatus st u role oid .completed note now = .ok st' →
      findById st'.listings o.listing =
        (findById st.listings o.listing).map fun l => { l with status := .sold }) ∧
    (∀ u role oid note now st' o, findById st.orders oid = some o →
      updateOrderStatus st u role oid .cancelled note now = .ok st' →
      findById st'.listings o.listing =
        (findById st.listings o.listing).map fun l => { l with status := .active }) ∧
    (∀ u oid reason now st' o, findById st.orders oid = some o →
      cancelOrder st u oid reason now = .ok st' →
      findById st'.listings o.listing =
        (findById st.listings o.listing).map fun l => { l with status := .active }) := by
  refine ⟨?_, ?_, ?_, ?_⟩
  · intro u lid fp np md notes now l hl hact hsell hfp
    have hcr : createOrder st u lid fp np md notes now = .ok
        { st with
          orders := (st.nextOrder, newOrder u lid l fp np md notes now) :: st.orders
          nextOrder := st.nextOrder + 1
          listings := setById st.listings lid { l with status := .reserved }
          users := pushUserOrder (pushUserOrder st.users u st.nextOrder)
            l.seller st.nextOrder } := by
      simp only [createOrder, hl]
      rw [if_neg (by simp [hact]), if_neg hsell, if_neg hfp]
    refine ⟨_, hcr, ⟨newOrder u lid l fp np md notes now, by simp [findById],
      rfl, rfl, rfl, rfl⟩, findById_setById_self _ _ _ _ hl⟩
  · intro u role oid note now st' o ho h
    simp only [updateOrderStatus, ho] at h
    split at h
    · simp at h
    · split at h
      · simp at h
      · injection h with h
        subst h
        simp [listingFlip, findById_setListingStatus]
  · intro u role oid note now st' o ho h
    simp only [updateOrderStatus, ho] at h
    split at h
    · simp at h
    · split at h
      · simp at h
      · injection h with h
        subst h
        simp [listingFlip, findById_setListingStatus]
  · intro u oid reason now st' o ho h
    simp only [cancelOrder, ho] at h
    split at h
    · simp at h
    · split at h
      · simp at h
      · split at h
        · simp at h
        · injection h with h
          subst h
          exact findById_setListingStatus st.listings o.listing .active

/-- Witness for C5: buyer 2 orders active listing 7 in the concrete store;
the order is pending with one timeline entry and the listing is reserved. -/
theorem c5_listing_sync_witness :
    ∃ st', createOrder stPending 2 7 45 none none none 8 = .ok st' ∧
      (∃ o, findById st'.orders stPending.nextOrder = some o ∧ o.status = .pending ∧
        o.timeline.length = 1 ∧ o.buyer = 2 ∧ o.seller = listing1.seller) ∧
      findById st'.listings 7 = some { listing1 with status := .reserved } :=
  (c5_listing_sync stPending).1 2 7 45 none none none 8 listing1
    (by decide) (by decide) (by decide) (by decide)

/-! ## C6: sendMessage postconditions and the lastMessage cache -/

theorem setUnread_unread_self (c : Chat) (u n : Nat) :
    (c.setUnread u n).unread u = n := by
  simp only [Chat.setUnread, Chat.unread]
  split
  · rename_i hsome
    obtain ⟨m, hm⟩ := Option.isSome_iff_exists.mp hsome
    simp [findById_setById_self _ _ _ _ hm]
  · simp [findById]

theorem setUnread_unread_other (c : Chat) (u v n : Nat) (h : v ≠ u) :
    (c.setUnread u n).unread v = c.unread v := by
  simp only [Chat.setUnread, Chat.unread]
  split
  · simp [findById_setById_ne _ _ _ _ h]
  · simp [findById, h]

/-- **C6 counterexample.** After participant 1 sends "hello" at time 99 in
the fresh chat, the stored last element of `messages` has `createdAt = 99`,
but the `lastMessage` cache was built from the in-memory message object
(which has no timestamp yet), so its `createdAt` is unset: the cache does
*not* mirror the true last entry's timestamp. -/
theorem c6_lastMessage_timestamp_counterexample :
    sendMessageEndpoint stChatFresh 1 21 "hello" .text none none 99 = .ok stSent ∧
    (findById stSent.chats 21).map
      (fun c => c.messages.getLast?.map Message.createdAt) = some (some (some 99)) ∧
    (findById stSent.chats 21).map
      (fun c => c.lastMessage.map LastMessage.createdAt) = some (some none) ∧
    (some (99 : Nat) : Option Nat) ≠ none := by
  refine ⟨rfl, by decide, by decide, by decide⟩

/-- **C6 (amended).** After every successful `sendMessage`, the new message
is the last element of `messages` (stored with `createdAt = now`; offer
sub-state starts `pending`), the recipient's unread counter is exactly one
greater than before and no other counter changes, and `lastMessage` caches
the new message's truncated content and sender — but its `createdAt` is
unset (`none`), taken from the in-memory message object before saving, so
it does not equal the stored message's timestamp. -/
theorem c6_sendMessage_effect (st : St) (u cid : Nat) (content : String)
    (typ : MsgType) (image : Option String) (offer : Option (Option Nat)) (now : Nat)
    (c : Chat) (hc : findById st.chats cid = some c)
    (hp : c.isParticipant u = true) (hbu : c.isBlockedBy u = false)
    (r : Nat) (hr : c.participants.find? (fun p => p ≠ u) = some r)
    (hbr : c.isBlockedBy r = false)
    (ht : ¬jsTrim content = "") (hlen : (jsTrim content).length ≤ 2000) :
    ∃ c', sendMessageEndpoint st u cid content typ image offer now =
        .ok { st with chats := setById st.chats cid c' } ∧
      c'.messages = c.messages ++
        [{ builtMsg c u (jsTrim content) typ image offer with createdAt := some now }] ∧
      c'.messages.getLast?.map Message.createdAt = some (some now) ∧
      c'.messages.getLast?.map (fun m => m.offer.status) = some .pending ∧
      c'.unread r = c.unread r + 1 ∧
      (∀ v, v ≠ r → c'.unread v = c.unread v) ∧
      c'.lastMessage = some ⟨(jsTrim content).take 100, u, none⟩ ∧
      c'.lastMessage.map LastMessage.createdAt = some none := by
  refine ⟨sentChat c u (jsTrim content) typ image offer r now,
    ?_, ?_, ?_, ?_, ?_, ?_, ?_, ?_⟩
  · simp only [sendMessageEndpoint]
    rw [if_neg ht, if_neg (by omega)]
    simp only [sendMessage, hc]
    rw [if_neg (by simp [hp]), if_neg (by simp [hbu]), hr]
    simp [hbr]
  · simp [sentChat, Chat.incrementUnread, Chat.setUnread, Chat.updateLastMessage]
  · simp [sentChat, Chat.incrementUnread, Chat.setUnread, Chat.updateLastMessage,
      getLast?_append_singleton]
  · simp [sentChat, Chat.incrementUnread, Chat.setUnread, Chat.updateLastMessage,
      getLast?_append_singleton, builtMsg]
    cases typ <;> cases offer <;> simp
  · simp only [sentChat]
    rw [show ∀ d : Chat, (d.incrementUnread r).unread r = d.unread r + 1 from
      fun d => setUnread_unread_self d r _]
    simp [Chat.updateLastMessage, Chat.unread]
  · intro v hv
    simp only [sentChat]
    rw [show ∀ d : Chat, (d.incrementUnread r).unread v = d.unread v from
      fun d => setUnread_unread_other d r v _ hv]
    simp [Chat.updateLastMessage, Chat.unread]
  · simp [sentChat, Chat.incrementUnread, Chat.setUnread, Chat.updateLastMessage, builtMsg]
  · simp [sentChat, Chat.incrementUnread, Chat.setUnread, Chat.updateLastMessage, builtMsg]

/-- Witness for C6 (amended) at the concrete fresh chat. -/
theorem c6_sendMessage_effect_witness :
    ∃ c', sendMessageEndpoint stChatFresh 1 21 "hello" .text none none 99 =
        .ok { stChatFresh with chats := setById stChatFresh.chats 21 c' } ∧
      c'.messages = chatFresh.messages ++
        [{ builtMsg chatFresh 1 (jsTrim "hello") .text none none with createdAt := some 99 }] ∧
      c'.messages.getLast?.map Message.createdAt = some (some 99) ∧
      c'.messages.getLast?.map (fun m => m.offer.status) = some .pending ∧
      c'.unread 2 = chatFresh.unread 2 + 1 ∧
      (∀ v, v ≠ 2 → c'.unread v = chatFresh.unread v) ∧
      c'.lastMessage = some ⟨(jsTrim "hello").take 100, 1, none⟩ ∧
      c'.lastMessage.map LastMessage.createdAt = some none :=
  c6_sendMessage_effect stChatFresh 1 21 "hello" .text none none 99 chatFresh
    (by decide) (by decide) (by decide) 2 (by decide) (by decide) (by decide) (by decide)


/-! ## C7: respondToOffer -/

theorem find?_setMsg_self (ms : List Message) (i : Nat) (m m' : Message)
    (hf : ms.find? (fun x => x.id = i) = some m) (hid : m'.id = i) :
    (setMsg ms i m').find? (fun x => x.id = i) = some m' := by
  induction ms with
  | nil => simp [List.find?] at hf
  | cons a t ih =>
    by_cases ha : a.id = i
    · simp [setMsg, ha, List.find?, hid]
    · rw [List.find?_cons_of_neg _ (by simp [ha])] at hf
      simp only [setMsg, if_neg ha]
      rw [List.find?_cons_of_neg _ (by simp [ha])]
      exact ih hf

/-- **C7.** `respondToOffer` succeeds exactly under its preconditions: valid
response string, chat found, acting user is the listing's seller, target
message exists, is an offer, and is still pending.  On success it writes the
response into the offer's status and touches nothing else — in particular it
creates no Order (the orders collection and the id counter are unchanged) —
and a second `respondToOffer` on the same message fails with the
already-responded (`AlreadyResolved`) error. -/
theorem c7_respondToOffer (st : St) (u cid mid : Nat) (resp : String) :
    (∀ st', respondToOffer st u cid mid resp = .ok st' →
      (resp = "accepted" ∨ resp = "rejected") ∧
      ∃ c, findById st.chats cid = some c ∧
      ∃ l, findById st.listings c.listing = some l ∧ l.seller = u ∧
      ∃ m, c.messages.find? (fun x => x.id = mid) = some m ∧
        m.type = .offer ∧ m.offer.status = .pending ∧
        st' = { st with chats := setById st.chats cid (respondedChat c mid m resp) } ∧
        (respondedMsg m resp).offer.status =
          (if resp = "accepted" then .accepted else .rejected) ∧
        st'.orders = st.orders ∧ st'.nextOrder = st.nextOrder ∧
        (∀ resp', (resp' = "accepted" ∨ resp' = "rejected") →
          respondToOffer st' u cid mid resp' =
            .error (.alreadyResolved "This offer has already been responded to"))) ∧
    ((resp = "accepted" ∨ resp = "rejected") →
      ∀ c, findById st.chats cid = some c →
      ∀ l, findById st.listings c.listing = some l → l.seller = u →
      ∀ m, c.messages.find? (fun x => x.id = mid) = some m →
        m.type = .offer → m.offer.status = .pending →
        ∃ st', respondToOffer st u cid mid resp = .ok st') := by
  constructor
  · intro st' h
    simp only [respondToOffer] at h
    split at h
    · simp at h
    · rename_i hv
      have hv' : resp = "accepted" ∨ resp = "rejected" := by
        by_cases h1 : resp = "accepted"
        · exact Or.inl h1
        · by_cases h2 : resp = "rejected"
          · exact Or.inr h2
          · exact absurd ⟨h1, h2⟩ hv
      split at h
      · simp at h
      · rename_i c hc
        split at h
        · simp at h
        · rename_i l hl
          split at h
          · simp at h
          · rename_i hsell
            split at h
            · simp at h
            · rename_i m hm
              split at h
              · simp at h
              · rename_i htype
                split at h
                · simp at h
                · rename_i hpend
                  injection h with h
                  subst h
                  have hmid : m.id = mid := by
                    have := List.find?_some hm
                    simpa using this
                  have hsell' : l.seller = u := by
                    by_contra hne
                    exact hsell hne
                  have htype' : m.type = .offer := by
                    by_contra hne
                    exact htype hne
                  have hpend' : m.offer.status = .pending := by
                    by_contra hne
                    exact hpend hne
                  refine ⟨hv', c, hc, l, hl, hsell', m, hm, htype', hpend',
                    rfl, rfl, rfl, rfl, ?_⟩
                  intro resp' hv2
                  simp only [respondToOffer]
                  rw [if_neg (by rcases hv2 with h2 | h2 <;> simp [h2])]
                  have hc' := findById_setById_self st.chats cid c
                    (respondedChat c mid m resp) hc
                  rw [hc']
                  simp only [respondedChat]
                  simp only [hl]
                  rw [if_neg (by simp [hsell'])]
                  rw [find?_setMsg_self c.messages mid m (respondedMsg m resp) hm
                    (by simp only [respondedMsg]; simpa using hmid)]
                  have hty : (respondedMsg m resp).type = .offer := by
                    simp [respondedMsg, htype']
                  have hst : (respondedMsg m resp).offer.status ≠ .pending := by
                    rcases hv' with h1 | h1 <;> simp [respondedMsg, h1]
                  simp [hty, hst]
  · intro hv c hc l hl hsell m hm htype hpend
    refine ⟨{ st with chats := setById st.chats cid (respondedChat c mid m resp) }, ?_⟩
    simp only [respondToOffer, hc, hl, hm]
    rw [if_neg (by rcases hv with h1 | h1 <;> simp [h1])]
    rw [if_neg (by simp [hsell]), if_neg (by simp [htype]),
      if_neg (by simp [hpend])]

/-- Witness for C7: seller 1 accepts the pending offer (message 0) in the
concrete offer chat. -/
theorem c7_respondToOffer_witness :
    ∃ st', respondToOffer stChat 1 20 0 "accepted" = .ok st' :=
  (c7_respondToOffer stChat 1 20 0 "accepted").2 (Or.inl rfl) chatOffer (by decide)
    listing1 (by decide) (by decide) offerMsg (by decide) (by decide) (by decide)

/-! ## C8: each rating slot settable at most once -/

theorem withSlot_status (o : Order) (b : Bool) (slot : RatingSlot) :
    (withSlot o b slot).status = o.status := by
  cases b <;> simp [withSlot]

theorem withSlot_buyer (o : Order) (b : Bool) (slot : RatingSlot) :
    (withSlot o b slot).buyer = o.buyer := by
  cases b <;> simp [withSlot]

theorem withSlot_seller (o : Order) (b : Bool) (slot : RatingSlot) :
    (withSlot o b slot).seller = o.seller := by
  cases b <;> simp [withSlot]

theorem existingScore_withSlot_self (o : Order) (b : Bool) (slot : RatingSlot) :
    existingScore (withSlot o b slot) b = slot.score := by
  cases b <;> simp [withSlot, existingScore]

/-- **C8.** A successful `addRating` (through the route's validation) implies
the order was completed, the caller was the buyer or the seller, the caller's
slot was unset, and the score is in 1..5; afterwards, a second `addRating`
call by the same party on the same order fails with the already-rated
(`AlreadyResolved`) error and the store — order and both rating slots
included — is unchanged. -/
theorem c8_addRating_once (st : St) (u oid score : Nat) (review : String) (now : Nat)
    (st' : St) (h : addRatingEndpoint st u oid score review now = .ok st') :
    ∃ o, findById st.orders oid = some o ∧
      o.status = .completed ∧ (u = o.buyer ∨ u = o.seller) ∧
      existingScore o (decide (u = o.buyer)) = 0 ∧
      1 ≤ score ∧ score ≤ 5 ∧
      ∀ score' review' now', 1 ≤ score' → score' ≤ 5 →
        addRatingEndpoint st' u oid score' review' now' =
          .error (.alreadyResolved "You have already rated this order") ∧
        St.after st' (addRatingEndpoint st' u oid score' review' now') = st' := by
  simp only [addRatingEndpoint] at h
  split at h
  · simp at h
  · rename_i hsc
    have hsc1 : 1 ≤ score := by omega
    have hsc5 : score ≤ 5 := by omega
    simp only [addRating] at h
    split at h
    · simp at h
    · rename_i o ho
      split at h
      · simp at h
      · rename_i hcr
        split at h
        · simp at h
        · rename_i hauth
          split at h
          · simp at h
          · rename_i hex
            injection h with h
            subst h
            have hcompleted : o.status = .completed := by
              have : o.canBeRated = true := by
                by_contra hne
                exact hcr (by simpa using hne)
              simpa [Order.canBeRated] using this
            have hauth' : u = o.buyer ∨ u = o.seller := by
              by_contra hne
              push_neg at hne
              exact hauth (by simp [hne.1, hne.2])
            have hex' : existingScore o (decide (u = o.buyer)) = 0 := by
              by_contra hne
              exact hex hne
            refine ⟨o, ho, hcompleted, hauth', hex', hsc1, hsc5, ?_⟩
            intro score' review' now' hs1 hs5
            have ho' : findById
                (setById st.orders oid
                  (withSlot o (decide (u = o.buyer)) ⟨score, review, now⟩)) oid =
                some (withSlot o (decide (u = o.buyer)) ⟨score, review, now⟩) :=
              findById_setById_self _ _ _ _ ho
            have heq : addRatingEndpoint
                { st with
                  orders := setById st.orders oid
                    (withSlot o (decide (u = o.buyer)) ⟨score, review, now⟩)
                  users := setUserRating st.users
                    (if decide (u = o.buyer) = true then o.seller else o.buyer)
                    (recomputeRating
                      (setById st.orders oid
                        (withSlot o (decide (u = o.buyer)) ⟨score, review, now⟩))
                      (if decide (u = o.buyer) = true then o.seller else o.buyer)
                      (decide (u = o.buyer))).1
                    (recomputeRating
                      (setById st.orders oid
                        (withSlot o (decide (u = o.buyer)) ⟨score, review, now⟩))
                      (if decide (u = o.buyer) = true then o.seller else o.buyer)
                      (decide (u = o.buyer))).2 }
                u oid score' review' now' =
                .error (.alreadyResolved "You have already rated this order") := by
              simp only [addRatingEndpoint]
              rw [if_neg (by omega)]
              simp only [addRating, ho']
              rw [if_neg (by simp [Order.canBeRated, withSlot_status, hcompleted])]
              rw [if_neg (by
                simp only [withSlot_buyer, withSlot_seller]
                rcases hauth' with h1 | h1 <;> simp [h1])]
              rw [if_pos (by
                simp only [withSlot_buyer]
                rw [existingScore_withSlot_self]
                simp only [ne_eq]
                omega)]
            exact ⟨heq, by rw [heq]; rfl⟩

/-- Witness for C8: buyer 2's successful rating of completed order 10, after
which a second rating by buyer 2 fails and changes nothing. -/
theorem c8_addRating_once_witness :
    ∃ o, findById stRating.orders 10 = some o ∧
      o.status = .completed ∧ ((2 : Nat) = o.buyer ∨ (2 : Nat) = o.seller) ∧
      existingScore o (decide ((2 : Nat) = o.buyer)) = 0 ∧
      1 ≤ 5 ∧ 5 ≤ 5 ∧
      ∀ score' review' now', 1 ≤ score' → score' ≤ 5 →
        addRatingEndpoint stRated 2 10 score' review' now' =
          .error (.alreadyResolved "You have already rated this order") ∧
        St.after stRated (addRatingEndpoint stRated 2 10 score' review' now') = stRated :=
  c8_addRating_once stRating 2 10 5 "great" 6 stRated rfl

/-! ## C9: sendMessage preconditions -/

/-- **C9 counterexample.** An `image`-typed message with no image payload
passes validation and the controller: the call succeeds and appends a
message with `type = image` and `image = none`.  The payload precondition
of the claim is not enforced anywhere. -/
theorem c9_payload_not_required_counterexample :
    sendMessageEndpoint stChatFresh 1 21 "pic" .image none none 50 = .ok stSentImg ∧
    (findById stSentImg.chats 21).map (fun c => c.messages.length) = some 1 ∧
    (findById stSentImg.chats 21).map
      (fun c => c.messages.getLast?.map fun m => (m.type, m.image)) =
      some (some (.image, none)) := by
  refine ⟨rfl, by decide, by decide⟩

/-- **C9 (amended).** `sendMessage` (validation plus controller) succeeds if
and only if: the trimmed content is non-empty and within the 2000-character
limit, the chat exists, the caller is a participant, and neither the caller
nor the other participant has blocked the conversation.  Image and offer
payloads are *not* required: a type-`image` call without an image payload
and a type-`offer` call without an amount still succeed (the payload is
silently dropped).  A chat blocked by either side fails with a `Forbidden`
error for any sender — and once unblocked (`blockedBy` flag cleared), the
same call succeeds, as the if-and-only-if shows — and when any precondition
fails no message is appended (the store is unchanged). -/
theorem c9_sendMessage_guards (st : St) (u cid : Nat) (content : String)
    (typ : MsgType) (image : Option String) (offer : Option (Option Nat)) (now : Nat) :
    ((∃ st', sendMessageEndpoint st u cid content typ image offer now = .ok st') ↔
      (jsTrim content ≠ "" ∧ (jsTrim content).length ≤ 2000 ∧
        ∃ c, findById st.chats cid = some c ∧ c.isParticipant u = true ∧
          c.isBlockedBy u = false ∧
          ∃ r, c.participants.find? (fun p => p ≠ u) = some r ∧
            c.isBlockedBy r = false)) ∧
    (∀ c, findById st.chats cid = some c → c.isParticipant u = true →
      jsTrim content ≠ "" → (jsTrim content).length ≤ 2000 →
      (c.isBlockedBy u = true →
        sendMessageEndpoint st u cid content typ image offer now =
          .error (.forbidden "You have blocked this chat")) ∧
      (∀ r, c.participants.find? (fun p => p ≠ u) = some r →
        c.isBlockedBy u = false → c.isBlockedBy r = true →
        sendMessageEndpoint st u cid content typ image offer now =
          .error (.forbidden "You cannot send messages to this user"))) ∧
    (∀ e, sendMessageEndpoint st u cid content typ image offer now = .error e →
      St.after st (sendMessageEndpoint st u cid content typ image offer now) = st) := by
  refine ⟨⟨?_, ?_⟩, ?_, ?_⟩
  · rintro ⟨st', h⟩
    simp only [sendMessageEndpoint] at h
    split at h
    · simp at h
    · rename_i ht
      split at h
      · simp at h
      · rename_i hlen
        simp only [sendMessage] at h
        split at h
        · simp at h
        · rename_i c hc
          split at h
          · simp at h
          · rename_i hp
            split at h
            · simp at h
            · rename_i hbu
              split at h
              · simp at h
              · rename_i r hr
                split at h
                · simp at h
                · rename_i hbr
                  refine ⟨ht, by omega, c, hc, ?_, ?_, r, hr, ?_⟩
                  · by_contra hne
                    exact hp (by simpa using hne)
                  · simpa using hbu
                  · simpa using hbr
  · rintro ⟨ht, hlen, c, hc, hp, hbu, r, hr, hbr⟩
    refine ⟨{ st with chats := setById st.chats cid (sentChat c u (jsTrim content) typ image offer r now) }, ?_⟩
    simp only [sendMessageEndpoint]
    rw [if_neg ht, if_neg (by omega)]
    simp only [sendMessage, hc, hr]
    rw [if_neg (by simp [hp]), if_neg (by simp [hbu]), if_neg (by simp [hbr])]
  · intro c hc hp ht hlen
    constructor
    · intro hbu
      simp only [sendMessageEndpoint]
      rw [if_neg ht, if_neg (by omega)]
      simp only [sendMessage, hc]
      rw [if_neg (by simp [hp]), if_pos hbu]
    · intro r hr hbu hbr
      simp only [sendMessageEndpoint]
      rw [if_neg ht, if_neg (by omega)]
      simp only [sendMessage, hc, hr]
      rw [if_neg (by simp [hp]), if_neg (by simp [hbu]), if_pos hbr]
  · intro e he
    rw [he]
    rfl

/-- Witness for C9 (amended): participant 1's valid text message in the
concrete fresh chat satisfies every precondition, so the call succeeds. -/
theorem c9_sendMessage_guards_witness :
    ∃ st', sendMessageEndpoint stChatFresh 1 21 "hello" .text none none 99 = .ok st' :=
  (c9_sendMessage_guards stChatFresh 1 21 "hello" .text none none 99).1.mpr
    ⟨by decide, by decide, chatFresh, by decide, by decide, by decide, 2,
      by decide, by decide⟩

/-! ## Preservation of chat well-formedness -/

theorem ChatWF.counterBacked {c : Chat} (h : ChatWF c) (u : Nat) :
    CounterBacked c u :=
  fun hpos => (h.counters u hpos).2

/-- `findOrCreate`'s fresh chat (buyer distinct from seller, as the
controller enforces) is well-formed. -/
theorem chatWF_freshChat (b s lid : Nat) (hbs : b ≠ s) :
    ChatWF (freshChat b s lid) := by
  refine ⟨⟨b, s, hbs, rfl⟩, by simp [freshChat], ?_⟩
  intro v hv
  exfalso
  by_cases h1 : v = b
  · simp [freshChat, Chat.unread, findById, h1] at hv
  · by_cases h2 : v = s
    · subst h2
      simp [freshChat, Chat.unread, findById, fun h : v = b => h1 h] at hv
    · simp [freshChat, Chat.unread, findById, h1, h2] at hv

/-- `sendMessage`'s saved chat state is well-formed when the input chat is:
the appended message is sent by the (participant) caller, and the one
incremented counter (the recipient's) is backed by that new unread
message. -/
theorem chatWF_sentChat (c : Chat) (u : Nat) (t : String) (typ : MsgType)
    (img : Option String) (off : Option (Option Nat)) (r now : Nat)
    (hwf : ChatWF c) (hu : u ∈ c.participants)
    (hr : c.participants.find? (fun p => p ≠ u) = some r) :
    ChatWF (sentChat c u t typ img off r now) := by
  have hrmem : r ∈ c.participants := List.mem_of_find?_eq_some hr
  have hru : r ≠ u := by simpa using List.find?_some hr
  have hparts : (sentChat c u t typ img off r now).participants = c.participants := by
    simp [sentChat, Chat.updateLastMessage, Chat.incrementUnread, Chat.setUnread]
  have hmsgs : (sentChat c u t typ img off r now).messages =
      c.messages ++ [{ builtMsg c u t typ img off with createdAt := some now }] := by
    simp [sentChat, Chat.updateLastMessage, Chat.incrementUnread, Chat.setUnread]
  have hurd : ∀ v, v ≠ r →
      (sentChat c u t typ img off r now).unread v = c.unread v := by
    intro v hv
    simp only [sentChat, Chat.incrementUnread]
    rw [setUnread_unread_other _ _ _ _ hv]
    simp [Chat.updateLastMessage, Chat.unread]
  refine ⟨?_, ?_, ?_⟩
  · obtain ⟨a, b, hab, hp⟩ := hwf.two
    exact ⟨a, b, hab, by rw [hparts, hp]⟩
  · intro m hm
    rw [hmsgs] at hm
    rw [hparts]
    rcases List.mem_append.mp hm with h | h
    · exact hwf.senders m h
    · have : m = { builtMsg c u t typ img off with createdAt := some now } := by
        simpa using h
      rw [this]
      simpa [builtMsg] using hu
  · intro v hv
    by_cases hvr : v = r
    · subst hvr
      refine ⟨by rw [hparts]; exact hrmem,
        { builtMsg c u t typ img off with createdAt := some now },
        by rw [hmsgs]; simp, by simp [builtMsg], ?_⟩
      simp only [builtMsg]
      exact fun h => hru h.symm
    · rw [hurd v hvr] at hv
      obtain ⟨hvp, m0, hm0, hr0, hs0⟩ := hwf.counters v hv
      exact ⟨by rw [hparts]; exact hvp, m0, by rw [hmsgs]; exact List.mem_append_left _ hm0,
        hr0, hs0⟩

/-- `markAsRead` preserves well-formedness: the caller's counter becomes
backed vacuously (it is zero), and in a two-party chat any other
participant's backing messages were sent by the caller, which `markAsRead`
does not touch. -/
theorem chatWF_markAsRead (c : Chat) (u now : Nat) (hwf : ChatWF c)
    (hu : u ∈ c.participants) : ChatWF (c.markAsRead u now) := by
  obtain ⟨a, b, hab, hparts⟩ := hwf.two
  obtain ⟨f1, f2, f3, f4, f5⟩ := markAsRead_frame c u now
  refine ⟨⟨a, b, hab, by rw [f1, hparts]⟩, ?_, ?_⟩
  · intro m hm
    rw [markAsRead_messages] at hm
    obtain ⟨m0, hm0, rfl⟩ := List.mem_map.mp hm
    have hsp := hwf.senders m0 hm0
    rw [f1]
    by_cases hc0 : m0.isRead = false ∧ m0.sender ≠ u <;> simpa [markMsg, hc0] using hsp
  · intro v hv
    by_cases hvu : v = u
    · subst hvu
      rw [markAsRead_unread_zero c v now (hwf.counterBacked v)] at hv
      exact absurd hv (by simp)
    · have hunread : (c.markAsRead u now).unread v = c.unread v := by
        simp only [Chat.markAsRead]
        split
        · rw [setUnread_unread_other _ _ _ _ hvu]
          simp [Chat.unread]
        · simp [Chat.unread]
      rw [hunread] at hv
      obtain ⟨hvp, m0, hm0, hr0, hs0⟩ := hwf.counters v hv
      have hsp := hwf.senders m0 hm0
      have hsender_u : m0.sender = u := by
        rw [hparts] at hsp hu hvp
        simp only [List.mem_cons, List.not_mem_nil, or_false] at hsp hu hvp
        rcases hu with h2 | h2 <;> rcases hvp with h3 | h3 <;>
          rcases hsp with h1 | h1 <;> subst_vars <;>
          first
          | rfl
          | exact absurd rfl hvu
          | exact absurd rfl hs0
      refine ⟨by rw [f1]; exact hvp, markMsg u now m0, ?_, ?_, ?_⟩
      · rw [markAsRead_messages]
        exact List.mem_map_of_mem _ hm0
      · simp [markMsg, hsender_u, hr0]
      · simp only [markMsg]
        rw [if_neg (by simp [hsender_u])]
        exact hs0

theorem mem_setMsg (ms : List Message) (i : Nat) (m' : Message) :
    ∀ x ∈ setMsg ms i m', x ∈ ms ∨ x = m' := by
  induction ms with
  | nil => simp [setMsg]
  | cons a t ih =>
    intro x hx
    by_cases ha : a.id = i
    · simp only [setMsg, if_pos ha] at hx
      rcases List.mem_cons.mp hx with h | h
      · right; exact h
      · left; exact List.mem_cons_of_mem _ h
    · simp only [setMsg, if_neg ha] at hx
      rcases List.mem_cons.mp hx with h | h
      · left; simp [h]
      · rcases ih x h with h' | h'
        · left; exact List.mem_cons_of_mem _ h'
        · right; exact h'

/-- Replacing the found message by one with the same read flag and sender
preserves, for every original message, a counterpart with that read flag
and sender. -/
theorem witness_setMsg (i : Nat) (m m' : Message)
    (hread : m'.isRead = m.isRead) (hsender : m'.sender = m.sender) :
    ∀ ms : List Message, ms.find? (fun x => x.id = i) = some m →
      ∀ m0 ∈ ms, ∃ m1 ∈ setMsg ms i m',
        m1.isRead = m0.isRead ∧ m1.sender = m0.sender := by
  intro ms
  induction ms with
  | nil => simp
  | cons a t ih =>
    intro hf m0 hm0
    by_cases ha : a.id = i
    · rw [List.find?_cons_of_pos _ (by simp [ha])] at hf
      injection hf with hf
      simp only [setMsg, if_pos ha]
      rcases List.mem_cons.mp hm0 with h | h
      · subst h
        exact ⟨m', List.mem_cons_self _ _, by rw [hread, hf], by rw [hsender, hf]⟩
      · exact ⟨m0, List.mem_cons_of_mem _ h, rfl, rfl⟩
    · rw [List.find?_cons_of_neg _ (by simp [ha])] at hf
      simp only [setMsg, if_neg ha]
      rcases List.mem_cons.mp hm0 with h | h
      · subst h
        exact ⟨m0, List.mem_cons_self _ _, rfl, rfl⟩
      · obtain ⟨m1, hm1, h1, h2⟩ := ih hf m0 h
        exact ⟨m1, List.mem_cons_of_mem _ hm1, h1, h2⟩

/-- `respondToOffer`'s mutation (offer status only) preserves chat
well-formedness. -/
theorem chatWF_respondedChat (c : Chat) (mid : Nat) (m : Message) (resp : String)
    (hwf : ChatWF c) (hf : c.messages.find? (fun x => x.id = mid) = some m) :
    ChatWF (respondedChat c mid m resp) := by
  refine ⟨?_, ?_, ?_⟩
  · obtain ⟨a, b, hab, hp⟩ := hwf.two
    exact ⟨a, b, hab, by simp [respondedChat, hp]⟩
  · intro x hx
    simp only [respondedChat] at hx
    rcases mem_setMsg _ _ _ x hx with h | h
    · simpa [respondedChat] using hwf.senders x h
    · subst h
      have := hwf.senders m (List.mem_of_find?_eq_some hf)
      simpa [respondedChat, respondedMsg] using this
  · intro v hv
    have hvv : 0 < c.unread v := by
      simpa [respondedChat, Chat.unread] using hv
    obtain ⟨hvp, m0, hm0, hr0, hs0⟩ := hwf.counters v hvv
    obtain ⟨m1, hm1, h1, h2⟩ := witness_setMsg mid m (respondedMsg m resp)
      (by simp [respondedMsg]) (by simp [respondedMsg]) c.messages hf m0 hm0
    exact ⟨by simpa [respondedChat] using hvp, m1,
      by simpa [respondedChat] using hm1,
      by rw [h1]; exact hr0, by rw [h2]; exact hs0⟩

/-- `toggleBlockChat` and `deleteChat` only touch `blockedBy`/`isActive`,
which well-formedness does not mention. -/
theorem chatWF_setFlags (c : Chat) (bl : List Nat) (act : Bool) (hwf : ChatWF c) :
    ChatWF { c with blockedBy := bl, isActive := act } := by
  obtain ⟨a, b, hab, hp⟩ := hwf.two
  exact ⟨⟨a, b, hab, hp⟩, hwf.senders, hwf.counters⟩
